import Mathlib

/-!
Verification of the Embree-based visibility / shadow-ray tracing engine
(`light/trace_embree.cc` of ericw-tools) against its natural-language
specification.

The development shallowly embeds the engine's data model and operations:

* machine floats carrying alpha values, colors and geometric coordinates are
  modelled as exact rationals (`ℚ`); every comparison performed by the code on
  these values (`< 1.0f`, `< 0`, `!= 0.0f`) is order-exact on the values the
  code computes, so the rational model is faithful for those branches;
* external collaborators that live outside the translated file (the BSP
  accessors, the extended-texinfo-flag lookup, `Contents_IsTranslucent`, the
  texture sampler, the polylib winding library) are modelled at their
  interface, following the specification's description of that interface —
  each such definition is marked `Modelled from the spec:`;
* fatal errors (`Error(...)`, `Q_assert`) are modelled as `Option`/`none`
  results where a claim depends on them.
-/

namespace ETrace

/-! ## Rational 3-vectors (`vec3_t` with exact coordinates) -/

/-- `vec3_t`: a 3-component vector.  Coordinates are exact rationals standing
for the `vec_t` (float/double) components. -/
structure Vec3 where
  x : ℚ
  y : ℚ
  z : ℚ
deriving DecidableEq, Repr

namespace Vec3

/-- `DotProduct` -/
def dot (a b : Vec3) : ℚ := a.x * b.x + a.y * b.y + a.z * b.z

/-- `VectorScale` -/
def scale (s : ℚ) (a : Vec3) : Vec3 := ⟨s * a.x, s * a.y, s * a.z⟩

/-- componentwise sum (`VectorAdd` / the accumulation in `VectorMA`) -/
def add (a b : Vec3) : Vec3 := ⟨a.x + b.x, a.y + b.y, a.z + b.z⟩

/-- componentwise product (used to tint a ray color by a glass color) -/
def mul (a b : Vec3) : Vec3 := ⟨a.x * b.x, a.y * b.y, a.z * b.z⟩

/-- `VectorMA va scale vb`: `va + scale * vb` -/
def ma (va : Vec3) (s : ℚ) (vb : Vec3) : Vec3 := va.add (scale s vb)

/-- componentwise difference -/
def sub (a b : Vec3) : Vec3 := ⟨a.x - b.x, a.y - b.y, a.z - b.z⟩

end Vec3

/-! ## Q2 surface-content flags (public Quake 2 file-format constants) -/

def Q2_SURF_LIGHT : Nat := 0x1
def Q2_SURF_SKY : Nat := 0x4
def Q2_SURF_TRANS33 : Nat := 0x10
def Q2_SURF_TRANS66 : Nat := 0x20
def Q2_SURF_NODRAW : Nat := 0x80
def Q2_SURF_TRANSLUCENT : Nat := Q2_SURF_TRANS33 ||| Q2_SURF_TRANS66

/-! ## External data model: models and faces -/

/-- `modelinfo_t` (external, read-only): the shadow policy of one model.
The `id` field stands for the identity of the C++ object: the filter compares
model pointers (`source_modelinfo != hit_modelinfo`), so two models with equal
flag values are still distinct objects. -/
structure modelinfo_t where
  id : Nat
  isWorld : Bool
  shadow : Bool
  shadowself : Bool
  shadowworldonly : Bool
  switchableshadow : Bool
  /-- `switchshadstyle.intValue()` -/
  switchshadstyle : Int
  /-- `alpha.floatValue()` (defaults to 1.0) -/
  alpha : ℚ
deriving DecidableEq, Repr

/-- Modelled from the spec: the `face → texinfo extended-flags` lookup
(`extended_texinfo_flags[face->texinfo]`, the array itself lives outside the
translated file) "supplies the no-shadow flag and fractional alpha override".
`noshadow` is the `TEX_NOSHADOW` bit; `lightAlphaBits` is the raw bit-field
read at `TEX_LIGHT_ALPHA_SHIFT` (the code masks it with `& 127`). -/
structure extended_texinfo_t where
  noshadow : Bool
  lightAlphaBits : Nat
deriving DecidableEq, Repr

/-- `bsp2_dface_t` together with the read-only per-face data the engine pulls
from the BSP accessors:
`vertexIndices j` = `Face_VertexAtIndex(bsp, face, j)` (and `numedges` is its
length), `texname` = `Face_TextureName(bsp, face)` (as a character list; an
empty list stands for the empty C string), `contents` =
`Face_Contents(bsp, face)`, `texinfoValue` = `Face_Texinfo(bsp, face)->value`.
`contentsIsTranslucent` is modelled from the spec: the external predicate
`Contents_IsTranslucent(bsp, contents)` ("liquid/translucent content"). -/
structure bsp2_dface_t where
  id : Nat
  vertexIndices : List Nat
  texname : List Char
  contents : Nat
  contentsIsTranslucent : Bool
  texinfoValue : Int
  extflags : extended_texinfo_t
deriving DecidableEq, Repr

/-- `face->numedges` -/
def bsp2_dface_t.numedges (f : bsp2_dface_t) : Nat := f.vertexIndices.length

/-- `Face_Alpha`: returns 1.0 unless a custom alpha value is set; priority is
`_light_alpha` (from the extended texinfo flags, 0 meaning unset), then the
model's `alpha`. -/
def Face_Alpha (modelinfo : modelinfo_t) (face : bsp2_dface_t) : ℚ :=
  let alpha_u7 : Nat := face.extflags.lightAlphaBits &&& 127
  let alpha_q : ℚ := (alpha_u7 : ℚ) / 127
  if alpha_q ≠ 0 then alpha_q else modelinfo.alpha

/-- `Q_strncasecmp("sky", texname, 3) == 0`: the texture name starts with
"sky", compared case-insensitively. -/
def skyNameMatch (name : List Char) : Bool :=
  match name with
  | c0 :: c1 :: c2 :: _ => c0.toLower == 's' && c1.toLower == 'k' && c2.toLower == 'y'
  | _ => false

/-! ## Geometry Classifier (the face-classification loop of `Embree_TraceInit`) -/

/-- The classification outcome for one face: which bucket
(`skyfaces` / `solidfaces` / `filterfaces`) it is pushed to, or dropped. -/
inductive FaceClass where
  | sky
  | solid
  | filter
  | dropped
deriving DecidableEq, Repr

/-- The per-face classification chain of `Embree_TraceInit`, translated
branch-for-branch from the loop body (each `continue` becomes the
corresponding branch result).  `q2` is `bsp->loadversion == Q2_BSPVERSION`. -/
def classifyFace (q2 : Bool) (model : modelinfo_t) (face : bsp2_dface_t) : FaceClass :=
  -- check for TEX_NOSHADOW
  if face.extflags.noshadow = true then .dropped
  -- handle switchableshadow
  else if model.switchableshadow = true then .filter
  -- skip NODRAW faces, but not SKY ones
  else if q2 = true ∧ face.contents &&& Q2_SURF_NODRAW ≠ 0 ∧ face.contents &&& Q2_SURF_SKY = 0 then .dropped
  -- handle glass / water
  else if Face_Alpha model face < 1 ∨ (q2 = true ∧ face.contents &&& Q2_SURF_TRANSLUCENT ≠ 0) then .filter
  -- fence
  else if face.texname.head? = some '{' then .filter
  -- handle sky
  else if (if q2 = true then
             face.contents &&& Q2_SURF_SKY ≠ 0 ∧ face.contents &&& Q2_SURF_LIGHT ≠ 0 ∧ face.texinfoValue ≠ 0
           else skyNameMatch face.texname = true) then .sky
  -- liquids: world liquids never cast shadows; shadow casting bmodel liquids do
  else if face.contentsIsTranslucent = true then
    (if model.isWorld = true then .dropped else .solid)
  -- solid faces
  else if model.isWorld = true ∨ model.shadow = true then .solid
  else .filter

/-- The model pre-filter of `Embree_TraceInit`: a model contributes faces only
if it is the world or has a shadow-related flag. -/
def modelContributes (m : modelinfo_t) : Bool :=
  m.isWorld || m.shadow || m.shadowself || m.shadowworldonly || m.switchableshadow

/-- What `Embree_TraceInit` does with one face of one model: the pre-filter
(`continue` over the whole model) followed by the per-face chain. -/
def modelFaceClass (q2 : Bool) (m : modelinfo_t) (f : bsp2_dface_t) : FaceClass :=
  if modelContributes m = true then classifyFace q2 m f else .dropped

/-- The specification's ordered classification rules (spec §4.1, quoted by the
claim), written independently from the words of the spec for comparison with
the code's chain.  The final rule is exactly as the spec states it: world or
unconditional-shadow models go to `solidFaces`, shadow-self-only or
shadow-world-only models go to `filterFaces` — and no other case is listed,
so a face reaching the end of the rules with none of those flags is dropped. -/
def specFaceClass (q2 : Bool) (m : modelinfo_t) (f : bsp2_dface_t) : FaceClass :=
  -- pre-filter: models that are not the world and have no shadow-related flag contribute no faces
  if ¬(m.isWorld = true ∨ m.shadow = true ∨ m.shadowself = true ∨ m.shadowworldonly = true ∨
       m.switchableshadow = true) then .dropped
  -- 1. a no-shadow texinfo flag drops the face
  else if f.extflags.noshadow = true then .dropped
  -- 2. a switchable-shadow model sends it to filterFaces
  else if m.switchableshadow = true then .filter
  -- 3. the Q2 nodraw-without-sky flag drops it
  else if q2 = true ∧ f.contents &&& Q2_SURF_NODRAW ≠ 0 ∧ f.contents &&& Q2_SURF_SKY = 0 then .dropped
  -- 4. effective alpha < 1.0 (or Q2 translucent content) sends it to filterFaces
  else if Face_Alpha m f < 1 ∨ (q2 = true ∧ f.contents &&& Q2_SURF_TRANSLUCENT ≠ 0) then .filter
  -- 5. a texture name starting with left-brace sends it to filterFaces
  else if f.texname.head? = some '{' then .filter
  -- 6. sky material: Q1 name prefixed "sky", or Q2 sky+light flags with nonzero texinfo value
  else if (if q2 = true then
             f.contents &&& Q2_SURF_SKY ≠ 0 ∧ f.contents &&& Q2_SURF_LIGHT ≠ 0 ∧ f.texinfoValue ≠ 0
           else skyNameMatch f.texname = true) then .sky
  -- 7. translucent/liquid content: dropped for the world model, solidFaces otherwise
  else if f.contentsIsTranslucent = true then
    (if m.isWorld = true then .dropped else .solid)
  -- 8. remaining: solidFaces for world/unconditional-shadow, filterFaces for self-only/world-only
  else if m.isWorld = true ∨ m.shadow = true then .solid
  else if m.shadowself = true ∨ m.shadowworldonly = true then .filter
  else .dropped

/-- **C1** — For every model and every face of that model, scene-build
classification assigns the face exactly per the spec's ordered rules: the
pre-filter drops all faces of models that are neither the world nor carry a
shadow-related flag, and the remaining faces follow the eight ordered rules
(no-shadow drop; switchable → filter; Q2 nodraw-without-sky drop; alpha/Q2
translucent → filter; fence name → filter; sky material → sky; liquid content
dropped for world else solid; remaining solid for world/shadow models and
filter for self-only/world-only models). -/
theorem C1_classification_matches_spec (q2 : Bool) (m : modelinfo_t) (f : bsp2_dface_t) :
    modelFaceClass q2 m f = specFaceClass q2 m f := by
  unfold modelFaceClass specFaceClass classifyFace modelContributes
  by_cases hw : m.isWorld = true <;>
    by_cases hs : m.shadow = true <;>
      by_cases hss : m.shadowself = true <;>
        by_cases hsw : m.shadowworldonly = true <;>
          by_cases hsw2 : m.switchableshadow = true <;>
            simp [hw, hs, hss, hsw, hsw2]

/-! ## Ray stream (`raystream_embree_t`)

The C++ class preallocates per-slot arrays of capacity `_maxrays` and keeps a
cursor `_numrays`; `pushRay` writes slot `_numrays` and increments the cursor.
The model keeps the arrays as lists whose length is the allocated capacity and
the cursor as a separate field, mirroring that layout.  `Q_assert` failures
(fatal programmer errors) are modelled as `none` results. -/

/-- `RTCRay` (the fields the engine uses).  `geomID = none` stands for
`RTC_INVALID_GEOMETRY_ID` (no hit); the `mask` field stores the ray index. -/
structure RTCRay where
  org : Vec3
  dir : Vec3
  tnear : ℚ
  tfar : ℚ
  geomID : Option Nat
  mask : Nat
deriving DecidableEq, Repr

/-- `SetupRay` -/
def SetupRay (rayindex : Nat) (start dir : Vec3) (dist : ℚ) : RTCRay :=
  { org := start, dir := dir, tnear := 0, tfar := dist, geomID := none, mask := rayindex }

/-- `raystream_embree_t`: the batched ray stream.  Every list has length
`maxrays` (the allocation); only the first `numrays` slots are meaningful. -/
structure raystream_embree_t where
  maxrays : Nat
  rays : List RTCRay
  raysMaxdist : List ℚ
  pointIndices : List Int
  rayColors : List Vec3
  rayNormalcontribs : List Vec3
  rayDynamicStyles : List Int
  numrays : Nat
deriving DecidableEq, Repr

/-- the constructor `raystream_embree_t(int maxRays)`: allocates capacity
`maxRays` (color/normal buffers are zeroed by `calloc`) and starts empty. -/
def raystream_embree_t.mk0 (maxRays : Nat) : raystream_embree_t :=
  { maxrays := maxRays
    rays := List.replicate maxRays (SetupRay 0 ⟨0,0,0⟩ ⟨0,0,0⟩ 0)
    raysMaxdist := List.replicate maxRays 0
    pointIndices := List.replicate maxRays 0
    rayColors := List.replicate maxRays ⟨0,0,0⟩
    rayNormalcontribs := List.replicate maxRays ⟨0,0,0⟩
    rayDynamicStyles := List.replicate maxRays 0
    numrays := 0 }

/-- `pushRay`: appends one ray at slot `_numrays`.  The leading
`Q_assert(_numrays < _maxrays)` is the fatal capacity check, modelled as
`none`.  A null `color`/`normalcontrib` pointer leaves the slot's buffer
contents unchanged, exactly as the C++ does. -/
def raystream_embree_t.pushRay (s : raystream_embree_t) (i : Int) (origin dir : Vec3)
    (dist : ℚ) (color : Option Vec3) (normalcontrib : Option Vec3) :
    Option raystream_embree_t :=
  if s.numrays < s.maxrays then
    some { s with
      rays := s.rays.set s.numrays (SetupRay s.numrays origin dir dist)
      raysMaxdist := s.raysMaxdist.set s.numrays dist
      pointIndices := s.pointIndices.set s.numrays i
      rayColors := match color with
        | some c => s.rayColors.set s.numrays c
        | none => s.rayColors
      rayNormalcontribs := match normalcontrib with
        | some n => s.rayNormalcontribs.set s.numrays n
        | none => s.rayNormalcontribs
      rayDynamicStyles := s.rayDynamicStyles.set s.numrays 0
      numrays := s.numrays + 1 }
  else none

/-- `numPushedRays` -/
def raystream_embree_t.numPushedRays (s : raystream_embree_t) : Nat := s.numrays

/-- `clearPushedRays`: resets the cursor, touching nothing else. -/
def raystream_embree_t.clearPushedRays (s : raystream_embree_t) : raystream_embree_t :=
  { s with numrays := 0 }

/-! ## Per-query context (`ray_source_info`) and the filter's mutators -/

/-- `ray_source_info`: the per-query transient context.  `raystream` may be
`none` when the ray is not from a ray stream; `singleRayShadowStyle` is only
used in that case. -/
structure ray_source_info where
  raystream : Option raystream_embree_t
  self : Option modelinfo_t
  singleRayShadowStyle : Int
deriving DecidableEq, Repr

/-- `source_modelinfo && source_modelinfo->isWorld()`: whether the querying
model is present and is the world. -/
def sourceIsWorld (ctx : ray_source_info) : Bool :=
  match ctx.self with
  | some s => s.isWorld
  | none => false

/-- `AddDynamicOccluderToRay`: records a switchable-shadow style, into the
owning ray stream's per-slot array when present, else into the single-query
accumulator. -/
def AddDynamicOccluderToRay (ctx : ray_source_info) (rayIndex : Nat) (style : Int) :
    ray_source_info :=
  match ctx.raystream with
  | some rs =>
      { ctx with raystream := some { rs with rayDynamicStyles := rs.rayDynamicStyles.set rayIndex style } }
  | none => { ctx with singleRayShadowStyle := style }

/-- `AddGlassToRay`: with no ray stream this is a no-op; otherwise the
opacity is clamped to `[0,1]` and the ray's stored color is replaced by
`opacity * (color * glasscolor) + (1 - opacity) * color` (the code builds this
with two `VectorMA` calls from `{0,0,0}`).  The `Q_assert`s on the ray index
and on the glass color range are in-range preconditions of the callers; the
model's `List.set`/`getD` make the function total. -/
def AddGlassToRay (ctx : ray_source_info) (rayIndex : Nat) (opacity : ℚ) (glasscolor : Vec3) :
    ray_source_info :=
  match ctx.raystream with
  | none => ctx
  | some rs =>
      let op := min (max 0 opacity) 1
      let cur := rs.rayColors.getD rayIndex ⟨0,0,0⟩
      let tinted := cur.mul glasscolor
      let lerped := Vec3.ma (Vec3.ma ⟨0,0,0⟩ op tinted) (1 - op) cur
      { ctx with raystream := some { rs with rayColors := rs.rayColors.set rayIndex lerped } }

/-! ## The transparency / shadow filter (`Embree_FilterFuncN`)

The C++ callback receives a vectorized batch and a validity mask and handles
each still-valid candidate independently; the model is the per-candidate body
of that loop.  Setting `valid[i] = INVALID` is "reject" (`false`); leaving it
valid and copying the hit is "accept" (`true`). -/

/-- `color_rgba`: the texel returned by the external `SampleTexture`
collaborator (8-bit channels). -/
structure color_rgba where
  r : Nat
  g : Nat
  b : Nat
  a : Nat
deriving DecidableEq, Repr

/-- The data of one candidate hit as seen by the filter: the reverse-lookup
results for `(geomID, primID)`, the texel sampled at the ray endpoint, the
ray direction and the hit's geometric normal, and the ray index unpacked from
the mask field. -/
structure HitData where
  hit_modelinfo : Option modelinfo_t
  face : bsp2_dface_t
  sample : color_rgba
  rayDir : Vec3
  geomNormal : Vec3
  rayIndex : Nat
deriving DecidableEq, Repr

/-- The fence-texture test of the filter (mxd): Q2 uses
`(contents & Q2_SURF_TRANSLUCENT) == Q2_SURF_TRANSLUCENT` (both translucency
flags set), Q1 uses a texture name starting with a left brace. -/
def hitIsFence (q2 : Bool) (h : HitData) : Bool :=
  if q2 then (h.face.contents &&& Q2_SURF_TRANSLUCENT) == Q2_SURF_TRANSLUCENT
  else h.face.texname.head? == some '{'

/-- The glass test of the filter (mxd): Q2 uses exactly one translucency flag,
Q1 uses effective alpha `< 1.0`. -/
def hitIsGlass (q2 : Bool) (hm : modelinfo_t) (h : HitData) : Bool :=
  if q2 then !(hitIsFence q2 h) && ((h.face.contents &&& Q2_SURF_TRANSLUCENT) != 0)
  else decide (Face_Alpha hm h.face < 1)

/-- The alpha value the filter hands to `AddGlassToRay`: `Face_Alpha`,
overridden in Q2 glass by the fixed two-grade value (the float literals
`0.66f`/`0.33f` are written as `66/100`/`33/100`; no branch of the engine
compares against their exact values), then overridden by the sampled texel's
alpha channel when that is below 255. -/
def glassEffectiveAlpha (q2 : Bool) (hm : modelinfo_t) (h : HitData) : ℚ :=
  let alpha := Face_Alpha hm h.face
  let alpha := if q2 = true ∧ hitIsGlass q2 hm h = true then
      (if (h.face.contents &&& Q2_SURF_TRANS33) != 0 then 66/100 else 33/100)
    else alpha
  if h.sample.a < 255 then (h.sample.a : ℚ) / 255 else alpha

/-- The glass color handed to `AddGlassToRay`: the sampled texel scaled by
`1/255`. -/
def glassSampleColor (h : HitData) : Vec3 :=
  ⟨(h.sample.r : ℚ) / 255, (h.sample.g : ℚ) / 255, (h.sample.b : ℚ) / 255⟩

/-- The per-candidate body of `Embree_FilterFuncN`.  Returns
`(accepted, updated context)`.

The glass branch's "exiting the surface" test is
`DotProduct(normalize rayDir, normalize Ng) < 0` in the source; normalization
scales each vector by a positive factor (and maps the zero vector to itself),
so the sign of the dot product — all the branch reads — is that of
`DotProduct(rayDir, Ng)`, which is what the model tests. -/
def filterCandidate (q2 : Bool) (ctx : ray_source_info) (h : HitData) :
    Bool × ray_source_info :=
  match h.hit_modelinfo with
  | none => (false, ctx)  -- hit a "skip" face with no associated model: reject
  | some hit_modelinfo =>
    if hit_modelinfo.shadowworldonly = true ∧ sourceIsWorld ctx = false then
      (false, ctx)
    else if hit_modelinfo.shadowself = true ∧ ctx.self ≠ some hit_modelinfo then
      (false, ctx)
    else if hit_modelinfo.switchableshadow = true then
      (false, AddDynamicOccluderToRay ctx h.rayIndex hit_modelinfo.switchshadstyle)
    else
      let isFence := hitIsFence q2 h
      let isGlass := hitIsGlass q2 hit_modelinfo h
      if isFence || isGlass then
        if isGlass then
          let ctx' := if Vec3.dot h.rayDir h.geomNormal < 0 then
              AddGlassToRay ctx h.rayIndex (glassEffectiveAlpha q2 hit_modelinfo h)
                (glassSampleColor h)
            else ctx
          (false, ctx')
        else if isFence then
          if h.sample.a < 255 then (false, ctx) else (true, ctx)
        else (true, ctx)
      else (true, ctx)

/-! ## Occlusion queries (`rtcOccluded1Ex` and `Embree_TestLight`)

A query's traversal presents the ray with a sequence of candidate hits.  Hits
on the sky, solid and skip geometries carry no filter and are accepted
outright; hits on the filtered geometry run `Embree_FilterFuncN`.  An
occlusion query stops at the first accepted hit. -/

/-- One candidate hit met by a traced ray: `filtered` tells whether it is on
the filtered geometry (filter installed) or on the sky/solid/skip geometry
(no filter, always blocks). -/
structure TraceHit where
  filtered : Bool
  data : HitData
deriving DecidableEq, Repr

/-- The occlusion traversal: `(occluded, final context)`. -/
def traceOcclusion (q2 : Bool) (ctx : ray_source_info) : List TraceHit → Bool × ray_source_info
  | [] => (false, ctx)
  | h :: rest =>
      if h.filtered = true then
        match filterCandidate q2 ctx h.data with
        | (true, ctx') => (true, ctx')
        | (false, ctx') => traceOcclusion q2 ctx' rest
      else (true, ctx)

/-- `hitresult_t` -/
structure hitresult_t where
  visible : Bool
  dynamicStyle : Int
deriving DecidableEq, Repr

/-- `Embree_TestLight`: the single-ray point-visibility query.  Builds a
context with no ray stream (`ray_source_info ctx2(nullptr, self)`), runs the
occlusion query, and returns `{false, 0}` when fully occluded, else
`{true, ctx2.singleRayShadowStyle}`. -/
def Embree_TestLight (q2 : Bool) (hits : List TraceHit) (self : Option modelinfo_t) :
    hitresult_t :=
  let ctx : ray_source_info := ⟨none, self, 0⟩
  let res := traceOcclusion q2 ctx hits
  if res.1 = true then ⟨false, 0⟩
  else ⟨true, res.2.singleRayShadowStyle⟩

/-! ## Helper lemmas about the filter and the occlusion traversal -/

lemma filterCandidate_switchable_eq (q2 : Bool) (ctx : ray_source_info) (h : HitData)
    (hm : modelinfo_t) (hmod : h.hit_modelinfo = some hm)
    (hwo : ¬(hm.shadowworldonly = true ∧ sourceIsWorld ctx = false))
    (hso : ¬(hm.shadowself = true ∧ ctx.self ≠ some hm))
    (hsw : hm.switchableshadow = true) :
    filterCandidate q2 ctx h = (false, AddDynamicOccluderToRay ctx h.rayIndex hm.switchshadstyle) := by
  simp only [filterCandidate, hmod]
  rw [if_neg hwo, if_neg hso, if_pos hsw]

lemma filterCandidate_opaque_accept (q2 : Bool) (ctx : ray_source_info) (h : HitData)
    (hm : modelinfo_t) (hmod : h.hit_modelinfo = some hm)
    (hwo : ¬(hm.shadowworldonly = true ∧ sourceIsWorld ctx = false))
    (hso : ¬(hm.shadowself = true ∧ ctx.self ≠ some hm))
    (hsw : hm.switchableshadow = false)
    (hf : hitIsFence q2 h = false) (hg : hitIsGlass q2 hm h = false) :
    filterCandidate q2 ctx h = (true, ctx) := by
  simp only [filterCandidate, hmod]
  rw [if_neg hwo, if_neg hso, if_neg (by simp [hsw])]
  simp [hf, hg]

lemma traceOcclusion_all_rejected (q2 : Bool) :
    ∀ (hits : List TraceHit) (ctx : ray_source_info),
      (∀ th ∈ hits, th.filtered = true ∧ filterCandidate q2 ctx th.data = (false, ctx)) →
      traceOcclusion q2 ctx hits = (false, ctx) := by
  intro hits
  induction hits with
  | nil => intro ctx _; rfl
  | cons h rest ih =>
      intro ctx hall
      have hh := hall h (List.mem_cons_self h rest)
      have hrest : ∀ th ∈ rest, th.filtered = true ∧ filterCandidate q2 ctx th.data = (false, ctx) :=
        fun th hth => hall th (List.mem_cons_of_mem h hth)
      simp only [traceOcclusion, hh.1, if_pos, hh.2]
      exact ih ctx hrest

lemma traceOcclusion_all_switchable (q2 : Bool) (style : Int) :
    ∀ (hits : List TraceHit) (ctx : ray_source_info), ctx.raystream = none →
      (∀ th ∈ hits, th.filtered = true ∧ ∃ hm : modelinfo_t,
          th.data.hit_modelinfo = some hm ∧ hm.switchableshadow = true ∧
          hm.shadowworldonly = false ∧ hm.shadowself = false ∧ hm.switchshadstyle = style) →
      traceOcclusion q2 ctx hits =
        (false, if hits = [] then ctx else { ctx with singleRayShadowStyle := style }) := by
  intro hits
  induction hits with
  | nil => intro ctx _ _; rfl
  | cons h rest ih =>
      intro ctx hnone hall
      obtain ⟨hfil, hm, hmod, hsw, hwo, hso, hstyle⟩ := hall h (List.mem_cons_self h rest)
      have hstep : filterCandidate q2 ctx h.data =
          (false, AddDynamicOccluderToRay ctx h.data.rayIndex hm.switchshadstyle) :=
        filterCandidate_switchable_eq q2 ctx h.data hm hmod (by simp [hwo]) (by simp [hso]) hsw
      have hadd : AddDynamicOccluderToRay ctx h.data.rayIndex hm.switchshadstyle =
          { ctx with singleRayShadowStyle := style } := by
        simp only [AddDynamicOccluderToRay, hnone, hstyle]
      have hrest : ∀ th ∈ rest, th.filtered = true ∧ ∃ hm : modelinfo_t,
          th.data.hit_modelinfo = some hm ∧ hm.switchableshadow = true ∧
          hm.shadowworldonly = false ∧ hm.shadowself = false ∧ hm.switchshadstyle = style :=
        fun th hth => hall th (List.mem_cons_of_mem h hth)
      have hrec := ih { ctx with singleRayShadowStyle := style } (by simp [hnone]) hrest
      simp only [traceOcclusion, hfil, if_pos, hstep, hadd, hrec]
      rcases rest with - | ⟨r, rs⟩ <;> simp

/-! ## Claims about the transparency / shadow filter -/

/-- The specification's glass-tint formula: "linearly interpolate between the
ray's current color and `currentColor * glassColor` using the glass's alpha
as blend weight". -/
def lerpColor (opacity : ℚ) (cur glasscolor : Vec3) : Vec3 :=
  Vec3.add (Vec3.scale opacity (cur.mul glasscolor)) (Vec3.scale (1 - opacity) cur)

/-- **C2** — In the filter's transparency step (under the hypotheses that the
hit has an owning model and none of the world-only / self-only / switchable
rejections fired): a fence-style (and not glass-style) material is rejected
iff the sampled texel's alpha is below 255 and otherwise accepted with the
context untouched (an ordinary opaque hit); a glass-style material is always
rejected, and when the ray is exiting the surface (negative dot product of
ray direction and hit geometry normal) the context is updated by
`AddGlassToRay` with the effective alpha and sampled glass color — a no-op
when no ray stream is present; and `AddGlassToRay` with a ray stream present
replaces the slot's color by the linear interpolation between the current
color and `currentColor * glassColor` with the (clamped) alpha as blend
weight. -/
theorem C2_transparency_filter (q2 : Bool) (ctx : ray_source_info) (h : HitData)
    (hm : modelinfo_t) (hmod : h.hit_modelinfo = some hm)
    (hwo : ¬(hm.shadowworldonly = true ∧ sourceIsWorld ctx = false))
    (hso : ¬(hm.shadowself = true ∧ ctx.self ≠ some hm))
    (hsw : hm.switchableshadow = false) :
    (hitIsFence q2 h = true → hitIsGlass q2 hm h = false →
      filterCandidate q2 ctx h = (if h.sample.a < 255 then (false, ctx) else (true, ctx)))
    ∧ (hitIsGlass q2 hm h = true →
        (filterCandidate q2 ctx h).1 = false
        ∧ (Vec3.dot h.rayDir h.geomNormal < 0 →
            (filterCandidate q2 ctx h).2 =
              AddGlassToRay ctx h.rayIndex (glassEffectiveAlpha q2 hm h) (glassSampleColor h))
        ∧ (¬ Vec3.dot h.rayDir h.geomNormal < 0 → (filterCandidate q2 ctx h).2 = ctx)
        ∧ (ctx.raystream = none → (filterCandidate q2 ctx h).2 = ctx))
    ∧ (∀ (rs : raystream_embree_t) (rayIndex : Nat) (opacity : ℚ) (glasscolor : Vec3),
        ctx.raystream = some rs → 0 ≤ opacity → opacity ≤ 1 →
        AddGlassToRay ctx rayIndex opacity glasscolor =
          { ctx with raystream := some { rs with rayColors := rs.rayColors.set rayIndex (lerpColor opacity (rs.rayColors.getD rayIndex ⟨0,0,0⟩) glasscolor) } }) := by
  refine ⟨?_, ?_, ?_⟩
  · intro hf hg
    simp only [filterCandidate, hmod]
    rw [if_neg hwo, if_neg hso, if_neg (by simp [hsw])]
    simp [hf, hg]
  · intro hg
    have heq : filterCandidate q2 ctx h =
        (false, if Vec3.dot h.rayDir h.geomNormal < 0 then
            AddGlassToRay ctx h.rayIndex (glassEffectiveAlpha q2 hm h) (glassSampleColor h)
          else ctx) := by
      simp only [filterCandidate, hmod]
      rw [if_neg hwo, if_neg hso, if_neg (by simp [hsw])]
      simp [hg]
    refine ⟨by rw [heq], ?_, ?_, ?_⟩
    · intro hdot; rw [heq]; simp [hdot]
    · intro hdot; rw [heq]; simp [hdot]
    · intro hnone
      rw [heq]
      have : AddGlassToRay ctx h.rayIndex (glassEffectiveAlpha q2 hm h) (glassSampleColor h) = ctx := by
        simp only [AddGlassToRay, hnone]
      split <;> simp [this]
  · intro rs rayIndex opacity glasscolor hrs h0 h1
    have hclamp : min (max 0 opacity) 1 = opacity := by
      rw [max_eq_right h0, min_eq_left h1]
    have hlerp : ∀ (cur gc : Vec3),
        Vec3.ma (Vec3.ma ⟨0,0,0⟩ opacity (cur.mul gc)) (1 - opacity) cur =
          lerpColor opacity cur gc := by
      intro cur gc
      rcases cur with ⟨cx, cy, cz⟩
      rcases gc with ⟨gx, gy, gz⟩
      simp [Vec3.ma, Vec3.add, Vec3.scale, Vec3.mul, lerpColor]
    simp only [AddGlassToRay, hrs, hclamp, hlerp]

/-- **C3** — For a switchable-shadow model (reached past the earlier
rejections), the filter records the model's configured switch-shadow style id
and rejects the hit: into the owning ray stream's per-slot array when the
query is batched, else into the single-query accumulator; consequently a
point-visibility query (`Embree_TestLight`) whose ray passes through only
that model's geometry returns `visible = true` with `dynamicStyle` equal to
the model's configured style id. -/
theorem C3_switchable_shadow (q2 : Bool) (ctx : ray_source_info) (h : HitData)
    (hm : modelinfo_t) (hmod : h.hit_modelinfo = some hm)
    (hwo : ¬(hm.shadowworldonly = true ∧ sourceIsWorld ctx = false))
    (hso : ¬(hm.shadowself = true ∧ ctx.self ≠ some hm))
    (hsw : hm.switchableshadow = true) :
    filterCandidate q2 ctx h = (false, AddDynamicOccluderToRay ctx h.rayIndex hm.switchshadstyle)
    ∧ (∀ rs : raystream_embree_t, ctx.raystream = some rs →
        AddDynamicOccluderToRay ctx h.rayIndex hm.switchshadstyle =
          { ctx with raystream := some { rs with rayDynamicStyles := rs.rayDynamicStyles.set h.rayIndex hm.switchshadstyle } })
    ∧ (ctx.raystream = none →
        AddDynamicOccluderToRay ctx h.rayIndex hm.switchshadstyle =
          { ctx with singleRayShadowStyle := hm.switchshadstyle })
    ∧ (∀ (self : Option modelinfo_t) (m : modelinfo_t) (hits : List TraceHit),
        hits ≠ [] → m.switchableshadow = true → m.shadowworldonly = false → m.shadowself = false →
        (∀ th ∈ hits, th.filtered = true ∧ th.data.hit_modelinfo = some m) →
        Embree_TestLight q2 hits self = ⟨true, m.switchshadstyle⟩) := by
  refine ⟨filterCandidate_switchable_eq q2 ctx h hm hmod hwo hso hsw, ?_, ?_, ?_⟩
  · intro rs hrs; simp only [AddDynamicOccluderToRay, hrs]
  · intro hnone; simp only [AddDynamicOccluderToRay, hnone]
  · intro self m hits hne hm1 hm2 hm3 hall
    have hall2 : ∀ th ∈ hits, th.filtered = true ∧ ∃ hmx : modelinfo_t,
        th.data.hit_modelinfo = some hmx ∧ hmx.switchableshadow = true ∧
        hmx.shadowworldonly = false ∧ hmx.shadowself = false ∧
        hmx.switchshadstyle = m.switchshadstyle :=
      fun th hth => ⟨(hall th hth).1, m, (hall th hth).2, hm1, hm2, hm3, rfl⟩
    have htr := traceOcclusion_all_switchable q2 m.switchshadstyle hits ⟨none, self, 0⟩ rfl hall2
    simp only [Embree_TestLight, htr, if_neg hne]
    simp

/-- **C4** — The filter rejects a candidate hit when the hit model is
shadow-world-only and the querying model is absent or not the world, and
rejects it when the hit model is shadow-self-only and the querying model
differs from the hit model; consequently, for a shadow-self-only model, a
query with `querier ≠ hitModel` passing only through that model's geometry
returns fully visible, while the same query with `querier = hitModel` (for a
plain self-only model with opaque faces) returns occluded. -/
theorem C4_selfshadow_worldonly (q2 : Bool) (ctx : ray_source_info) (h : HitData)
    (hm : modelinfo_t) (hmod : h.hit_modelinfo = some hm) :
    (hm.shadowworldonly = true → sourceIsWorld ctx = false →
      filterCandidate q2 ctx h = (false, ctx))
    ∧ (hm.shadowself = true → ctx.self ≠ some hm →
      filterCandidate q2 ctx h = (false, ctx))
    ∧ (∀ (self : Option modelinfo_t) (m : modelinfo_t) (hits : List TraceHit),
        m.shadowself = true → self ≠ some m →
        (∀ th ∈ hits, th.filtered = true ∧ th.data.hit_modelinfo = some m) →
        Embree_TestLight q2 hits self = ⟨true, 0⟩)
    ∧ (∀ (m : modelinfo_t) (hits : List TraceHit),
        hits ≠ [] → m.shadowself = true → m.shadowworldonly = false → m.switchableshadow = false →
        (∀ th ∈ hits, th.filtered = true ∧ th.data.hit_modelinfo = some m ∧
          hitIsFence q2 th.data = false ∧ hitIsGlass q2 m th.data = false) →
        Embree_TestLight q2 hits (some m) = ⟨false, 0⟩) := by
  refine ⟨?_, ?_, ?_, ?_⟩
  · intro h1 h2
    simp only [filterCandidate, hmod]
    rw [if_pos ⟨h1, h2⟩]
  · intro h1 h2
    simp only [filterCandidate, hmod]
    by_cases hcase : hm.shadowworldonly = true ∧ sourceIsWorld ctx = false
    · rw [if_pos hcase]
    · rw [if_neg hcase, if_pos ⟨h1, h2⟩]
  · intro self m hits hmself hne hall
    have hrej : ∀ th ∈ hits, th.filtered = true ∧
        filterCandidate q2 ⟨none, self, 0⟩ th.data = (false, ⟨none, self, 0⟩) := by
      intro th hth
      refine ⟨(hall th hth).1, ?_⟩
      simp only [filterCandidate, (hall th hth).2]
      by_cases hcase : m.shadowworldonly = true ∧ sourceIsWorld ⟨none, self, 0⟩ = false
      · rw [if_pos hcase]
      · rw [if_neg hcase, if_pos ⟨hmself, hne⟩]
    have htr := traceOcclusion_all_rejected q2 hits ⟨none, self, 0⟩ hrej
    simp only [Embree_TestLight, htr]
    simp
  · intro m hits hne hmself hmwo hmsw hall
    rcases hits with - | ⟨th, rest⟩
    · exact absurd rfl hne
    · obtain ⟨hfil, hmod2, hf, hg⟩ := hall th (List.mem_cons_self th rest)
      have hacc : filterCandidate q2 ⟨none, some m, 0⟩ th.data = (true, ⟨none, some m, 0⟩) :=
        filterCandidate_opaque_accept q2 ⟨none, some m, 0⟩ th.data m hmod2
          (by simp [hmwo]) (by simp) hmsw hf hg
      simp only [Embree_TestLight, traceOcclusion, hfil, if_pos, hacc]

/-- **C10** — `Embree_TestLight` returns `dynamicStyle = 0` whenever the ray
is fully occluded, even when a switchable-shadow style was recorded into the
single-query accumulator before the blocking hit; a recorded style is
reported only with `visible = true`. -/
theorem C10_occluded_discards_style (q2 : Bool) (self : Option modelinfo_t) :
    (∀ hits : List TraceHit, (traceOcclusion q2 ⟨none, self, 0⟩ hits).1 = true →
      Embree_TestLight q2 hits self = ⟨false, 0⟩)
    ∧ (∀ hits : List TraceHit, (traceOcclusion q2 ⟨none, self, 0⟩ hits).1 = false →
      Embree_TestLight q2 hits self =
        ⟨true, (traceOcclusion q2 ⟨none, self, 0⟩ hits).2.singleRayShadowStyle⟩)
    ∧ (∀ (m : modelinfo_t) (swh blocker : TraceHit) (rest : List TraceHit),
        m.switchableshadow = true → m.shadowworldonly = false → m.shadowself = false →
        swh.filtered = true → swh.data.hit_modelinfo = some m → blocker.filtered = false →
        (traceOcclusion q2 ⟨none, self, 0⟩ [swh]).2.singleRayShadowStyle = m.switchshadstyle
        ∧ Embree_TestLight q2 (swh :: blocker :: rest) self = ⟨false, 0⟩) := by
  refine ⟨?_, ?_, ?_⟩
  · intro hits hocc
    simp only [Embree_TestLight, hocc]
    simp
  · intro hits hvis
    simp only [Embree_TestLight, hvis]
    simp
  · intro m swh blocker rest hm1 hm2 hm3 hfil hmod hbl
    have hstep : filterCandidate q2 ⟨none, self, 0⟩ swh.data =
        (false, AddDynamicOccluderToRay ⟨none, self, 0⟩ swh.data.rayIndex m.switchshadstyle) :=
      filterCandidate_switchable_eq q2 ⟨none, self, 0⟩ swh.data m hmod
        (by simp [hm2]) (by simp [hm3]) hm1
    constructor
    · simp only [traceOcclusion, hfil, if_pos, hstep]
      simp [AddDynamicOccluderToRay]
    · simp only [Embree_TestLight, traceOcclusion, hfil, if_pos, hstep, hbl]
      simp

/-! ## Concrete witness scenarios for the filter claims -/

/-- a glass model: casts shadow, model alpha 1/2 -/
def wGlassModel : modelinfo_t :=
  { id := 10, isWorld := false, shadow := true, shadowself := false, shadowworldonly := false,
    switchableshadow := false, switchshadstyle := 0, alpha := 1/2 }

/-- a glass-pane face (no per-face alpha override, plain texture name) -/
def wGlassFace : bsp2_dface_t :=
  { id := 1, vertexIndices := [0, 1, 2], texname := ['g', 'l', 'a', 's', 's'],
    contents := 0, contentsIsTranslucent := false, texinfoValue := 0,
    extflags := { noshadow := false, lightAlphaBits := 0 } }

/-- a one-slot ray stream holding a white ray color -/
def wRS : raystream_embree_t :=
  { maxrays := 1, rays := [SetupRay 0 ⟨0,0,0⟩ ⟨0,0,-1⟩ 10], raysMaxdist := [10],
    pointIndices := [0], rayColors := [⟨1,1,1⟩], rayNormalcontribs := [⟨0,0,0⟩],
    rayDynamicStyles := [0], numrays := 1 }

def wCtxGlass : ray_source_info := { raystream := some wRS, self := none, singleRayShadowStyle := 0 }

/-- hit on the glass pane: pure red texel at full texel opacity, ray exiting
the surface (direction against the geometric normal) -/
def wHitGlass : HitData :=
  { hit_modelinfo := some wGlassModel, face := wGlassFace,
    sample := { r := 255, g := 0, b := 0, a := 255 },
    rayDir := ⟨0, 0, -1⟩, geomNormal := ⟨0, 0, 1⟩, rayIndex := 0 }

/-- a switchable-shadow model with style id 7 -/
def wSwModel : modelinfo_t :=
  { id := 20, isWorld := false, shadow := false, shadowself := false, shadowworldonly := false,
    switchableshadow := true, switchshadstyle := 7, alpha := 1 }

/-- an ordinary opaque face -/
def wOpaqueFace : bsp2_dface_t :=
  { id := 2, vertexIndices := [0, 1, 2], texname := ['w', 'a', 'l', 'l'],
    contents := 0, contentsIsTranslucent := false, texinfoValue := 0,
    extflags := { noshadow := false, lightAlphaBits := 0 } }

/-- filtered-geometry hit on the switchable model -/
def wSwHit : TraceHit :=
  { filtered := true,
    data := { hit_modelinfo := some wSwModel, face := wOpaqueFace,
              sample := { r := 0, g := 0, b := 0, a := 255 },
              rayDir := ⟨0, 0, -1⟩, geomNormal := ⟨0, 0, 1⟩, rayIndex := 0 } }

/-- a shadow-self-only model -/
def wSelfModel : modelinfo_t :=
  { id := 30, isWorld := false, shadow := false, shadowself := true, shadowworldonly := false,
    switchableshadow := false, switchshadstyle := 0, alpha := 1 }

/-- some other (non-world) querying model -/
def wOtherModel : modelinfo_t :=
  { id := 31, isWorld := false, shadow := true, shadowself := false, shadowworldonly := false,
    switchableshadow := false, switchshadstyle := 0, alpha := 1 }

/-- filtered-geometry hit on the self-only model's opaque face -/
def wSelfHit : TraceHit :=
  { filtered := true,
    data := { hit_modelinfo := some wSelfModel, face := wOpaqueFace,
              sample := { r := 0, g := 0, b := 0, a := 255 },
              rayDir := ⟨0, 0, -1⟩, geomNormal := ⟨0, 0, 1⟩, rayIndex := 0 } }

/-- unfiltered (solid-geometry) blocking hit -/
def wBlocker : TraceHit := { filtered := false, data := wSelfHit.data }

/-- Witness for C2: the spec's scenario — a white ray through alpha-0.5 glass
of color (1,0,0), exiting the surface, is not blocked and its stored color
becomes (1, 1/2, 1/2). -/
theorem C2_transparency_filter_witness :
    (filterCandidate false wCtxGlass wHitGlass).1 = false ∧
    (filterCandidate false wCtxGlass wHitGlass).2.raystream =
      some { wRS with rayColors := [⟨1, 1/2, 1/2⟩] } := by
  have h := C2_transparency_filter false wCtxGlass wHitGlass wGlassModel rfl
    (by decide) (by decide) rfl
  have hglass := h.2.1 (by
    simp [hitIsGlass, Face_Alpha, wGlassModel, wGlassFace, wHitGlass]
    norm_num)
  refine ⟨hglass.1, ?_⟩
  have hcol := hglass.2.1 (by norm_num [Vec3.dot, wHitGlass])
  rw [hcol]
  norm_num [AddGlassToRay, wCtxGlass, wRS, glassEffectiveAlpha, glassSampleColor, wHitGlass,
    wGlassModel, wGlassFace, Face_Alpha, hitIsGlass, hitIsFence, Vec3.ma, Vec3.add, Vec3.scale,
    Vec3.mul]

/-- Witness for C3: a single-ray query through only the switchable model's
geometry is visible with the model's style id 7. -/
theorem C3_switchable_shadow_witness :
    wSwModel.switchableshadow = true ∧
    Embree_TestLight false [wSwHit] none = ⟨true, 7⟩ := by
  have h := C3_switchable_shadow false ⟨none, none, 0⟩ wSwHit.data wSwModel rfl
    (by decide) (by decide) rfl
  exact ⟨rfl, h.2.2.2 none wSwModel [wSwHit] (by decide) rfl rfl rfl (by decide)⟩

/-- Witness for C4: a foreign querier sees through the self-only model, while
the model itself is occluded by its own geometry. -/
theorem C4_selfshadow_worldonly_witness :
    Embree_TestLight false [wSelfHit] (some wOtherModel) = ⟨true, 0⟩ ∧
    Embree_TestLight false [wSelfHit] (some wSelfModel) = ⟨false, 0⟩ := by
  have hop : ∀ th ∈ [wSelfHit], th.filtered = true ∧ th.data.hit_modelinfo = some wSelfModel ∧
      hitIsFence false th.data = false ∧ hitIsGlass false wSelfModel th.data = false := by
    intro th hth
    simp only [List.mem_singleton] at hth
    subst hth
    refine ⟨rfl, rfl, rfl, ?_⟩
    simp only [hitIsGlass, decide_eq_false_iff_not, not_lt]
    norm_num [Face_Alpha, wSelfModel, wOpaqueFace, wSelfHit]
  have h := C4_selfshadow_worldonly false ⟨none, some wOtherModel, 0⟩ wSelfHit.data wSelfModel rfl
  exact ⟨h.2.2.1 (some wOtherModel) wSelfModel [wSelfHit] rfl (by decide) (by decide),
         h.2.2.2 wSelfModel [wSelfHit] (by decide) rfl rfl rfl hop⟩

/-- Witness for C10: the switchable hit records style 7 into the single-query
accumulator, yet the blocked query reports `{false, 0}`. -/
theorem C10_occluded_discards_style_witness :
    (traceOcclusion false ⟨none, none, 0⟩ [wSwHit]).2.singleRayShadowStyle = 7 ∧
    Embree_TestLight false [wSwHit, wBlocker] none = ⟨false, 0⟩ := by
  have h := (C10_occluded_discards_style false none).2.2 wSwModel wSwHit wBlocker []
    rfl rfl rfl rfl rfl rfl
  exact ⟨h.1, h.2⟩

/-! ## Scene Builder (`CreateGeometry`, `CreateGeometryFromWindings`) -/

/-- The fan-triangulation loop of `CreateGeometry` for one face: faces with
fewer than 3 edges are skipped; otherwise for `j = 2 .. numedges-1` the code
emits the triangle `(v(j-1), v(j), v(0))` with
`v(k) = Face_VertexAtIndex(bsp, face, k)` (here `k` ranges over the list
`vertexIndices`; all reads are in range by construction, `getD`'s default is
never used). -/
def faceFanTris (f : bsp2_dface_t) : List (Nat × Nat × Nat) :=
  if f.numedges < 3 then []
  else (List.range (f.numedges - 2)).map (fun k =>
    (f.vertexIndices.getD (k + 1) 0, f.vertexIndices.getD (k + 2) 0, f.vertexIndices.getD 0 0))

/-- `sceneinfo` -/
structure sceneinfo where
  geomID : Nat
  triToFace : List bsp2_dface_t
  triToModelinfo : List (Option modelinfo_t)
deriving DecidableEq, Repr

/-- `CreateGeometry`: triangulates each face into the index buffer and pushes,
in lockstep with each emitted triangle, the source face and its owning model
(`ModelInfoForFace`, abstracted as `lookupModel`; may be null for "skip"
faces) onto `triToFace` / `triToModelinfo`.  Returns the `sceneinfo` and the
triangle list (the single C++ loop fills both in lockstep; the parallel
`flatMap`s below emit exactly the same sequences). -/
def CreateGeometry (lookupModel : bsp2_dface_t → Option modelinfo_t) (geomID : Nat)
    (faces : List bsp2_dface_t) : sceneinfo × List (Nat × Nat × Nat) :=
  ({ geomID := geomID
     triToFace := faces.flatMap (fun f => (faceFanTris f).map (fun _ => f))
     triToModelinfo := faces.flatMap (fun f => (faceFanTris f).map (fun _ => lookupModel f)) },
   faces.flatMap faceFanTris)

/-- The same emission sequence as `CreateGeometry`, with each triangle tagged
by the `(face, model)` pair from which it was constructed. -/
def CreateGeometryTagged (lookupModel : bsp2_dface_t → Option modelinfo_t)
    (faces : List bsp2_dface_t) : List ((Nat × Nat × Nat) × bsp2_dface_t × Option modelinfo_t) :=
  faces.flatMap (fun f => (faceFanTris f).map (fun t => (t, f, lookupModel f)))

/-- The triangle loop of `CreateGeometryFromWindings` for one winding placed
at vertex offset `vert_index`: for `j = 2 .. numpoints-1` emit
`(vert_index + (j-1), vert_index + j, vert_index + 0)`. -/
def windingFanTris (vert_index : Nat) (numpoints : Nat) : List (Nat × Nat × Nat) :=
  (List.range (numpoints - 2)).map (fun k => (vert_index + (k + 1), vert_index + (k + 2), vert_index))

/-- The full triangle buffer of `CreateGeometryFromWindings`: windings are
laid out consecutively in the vertex buffer (`vert_index` advances by
`numpoints` per winding).  The function carries the running offset. -/
def windingsTris : List (List Vec3) → Nat → List (Nat × Nat × Nat)
  | [], _ => []
  | w :: rest, off => windingFanTris off w.length ++ windingsTris rest (off + w.length)

/-- `CreateGeometryFromWindings`: vertex buffer (each winding's points copied
verbatim, in order) and triangle buffer.  The code `Q_assert`s that every
winding has at least 3 points; it records no `sceneinfo` for this geometry. -/
def CreateGeometryFromWindings (windings : List (List Vec3)) :
    List Vec3 × List (Nat × Nat × Nat) :=
  (windings.flatMap id, windingsTris windings 0)

/-! ## The committed scene and reverse lookup -/

/-- The committed scene: the three classified `sceneinfo` groups
(`skygeom`, `solidgeom`, `filtergeom`) plus the skip-winding geometry, which
has a geometry id in the acceleration structure (when any windings exist) but
no recorded `sceneinfo`. -/
structure EmbreeScene where
  skygeom : sceneinfo
  solidgeom : sceneinfo
  filtergeom : sceneinfo
  skipGeomID : Option Nat
deriving DecidableEq, Repr

/-- `Embree_SceneinfoForGeomID`: resolves a geometry id against the three
recorded groups; any other id is `Error("unexpected geomID")`, modelled as
`none`. -/
def Embree_SceneinfoForGeomID (es : EmbreeScene) (geomID : Nat) : Option sceneinfo :=
  if geomID = es.skygeom.geomID then some es.skygeom
  else if geomID = es.solidgeom.geomID then some es.solidgeom
  else if geomID = es.filtergeom.geomID then some es.filtergeom
  else none

/-- `Embree_LookupFace`: `Embree_SceneinfoForGeomID` then `triToFace.at` (an
out-of-range index throws, modelled by the inner `none`). -/
def Embree_LookupFace (es : EmbreeScene) (geomID primID : Nat) : Option bsp2_dface_t :=
  match Embree_SceneinfoForGeomID es geomID with
  | none => none
  | some info => info.triToFace[primID]?

/-- `Embree_LookupModelinfo`: `Embree_SceneinfoForGeomID` then
`triToModelinfo.at` (the stored entry may itself be null). -/
def Embree_LookupModelinfo (es : EmbreeScene) (geomID primID : Nat) :
    Option (Option modelinfo_t) :=
  match Embree_SceneinfoForGeomID es geomID with
  | none => none
  | some info => info.triToModelinfo[primID]?

/-- The scene-construction tail of `Embree_TraceInit`: the Embree device
assigns geometry ids to a fresh scene in creation order, so the four
`rtcNewTriangleMesh` calls (`skygeom`, `solidgeom`, `filtergeom`, then the
skip windings — the latter only when the winding list is nonempty) receive
ids 0, 1, 2, 3. -/
def Embree_TraceInit_scene (lookupModel : bsp2_dface_t → Option modelinfo_t)
    (skyfaces solidfaces filterfaces : List bsp2_dface_t)
    (skipwindings : List (List Vec3)) : EmbreeScene :=
  { skygeom := (CreateGeometry lookupModel 0 skyfaces).1
    solidgeom := (CreateGeometry lookupModel 1 solidfaces).1
    filtergeom := (CreateGeometry lookupModel 2 filterfaces).1
    skipGeomID := if skipwindings.isEmpty then none else some 3 }

/-! ## Lemmas about the build -/

lemma faceFanTris_length (f : bsp2_dface_t) : (faceFanTris f).length = f.numedges - 2 := by
  by_cases h : f.numedges < 3
  · simp only [faceFanTris, if_pos h, List.length_nil]
    omega
  · simp [faceFanTris, h]

lemma tagged_map_tri (lookupModel : bsp2_dface_t → Option modelinfo_t) (geomID : Nat)
    (faces : List bsp2_dface_t) :
    (CreateGeometryTagged lookupModel faces).map (fun e => e.1) =
      (CreateGeometry lookupModel geomID faces).2 := by
  simp only [CreateGeometryTagged, CreateGeometry, List.map_flatMap, List.map_map]
  exact congrArg _ (funext fun a => by simp [Function.comp_def])

lemma tagged_map_face (lookupModel : bsp2_dface_t → Option modelinfo_t) (geomID : Nat)
    (faces : List bsp2_dface_t) :
    (CreateGeometryTagged lookupModel faces).map (fun e => e.2.1) =
      (CreateGeometry lookupModel geomID faces).1.triToFace := by
  simp only [CreateGeometryTagged, CreateGeometry, List.map_flatMap, List.map_map]
  exact congrArg _ (funext fun a => by simp [Function.comp_def])

lemma tagged_map_model (lookupModel : bsp2_dface_t → Option modelinfo_t) (geomID : Nat)
    (faces : List bsp2_dface_t) :
    (CreateGeometryTagged lookupModel faces).map (fun e => e.2.2) =
      (CreateGeometry lookupModel geomID faces).1.triToModelinfo := by
  simp only [CreateGeometryTagged, CreateGeometry, List.map_flatMap, List.map_map]
  exact congrArg _ (funext fun a => by simp [Function.comp_def])

/-! ## Claims about the scene builder -/

/-- **C7** — Fan triangulation: a polygon with `N ≥ 3` vertices (a face, or a
skip winding at vertex offset `off`) emits exactly `N - 2` triangles, the
`(j-2)`-th being `(vertex j-1, vertex j, vertex 0)` for `j = 2 .. N-1`
(winding order preserved); a face with fewer than 3 edges contributes no
triangles; and the triangle count of a built group is the sum of `N - 2`
over its faces (`N - 2` is natural subtraction, so excluded `N < 3` faces
contribute 0), likewise for the skip-winding geometry. -/
theorem C7_fan_triangulation :
    (∀ f : bsp2_dface_t, 3 ≤ f.numedges →
      (faceFanTris f).length = f.numedges - 2 ∧
      (∀ j, 2 ≤ j → j < f.numedges →
        (faceFanTris f)[j - 2]? =
          some (f.vertexIndices.getD (j - 1) 0, f.vertexIndices.getD j 0,
                f.vertexIndices.getD 0 0)))
    ∧ (∀ f : bsp2_dface_t, f.numedges < 3 → faceFanTris f = [])
    ∧ (∀ (lookupModel : bsp2_dface_t → Option modelinfo_t) (geomID : Nat)
        (faces : List bsp2_dface_t),
        ((CreateGeometry lookupModel geomID faces).2).length =
          (faces.map (fun f => f.numedges - 2)).sum)
    ∧ (∀ off n : Nat, 3 ≤ n →
        (windingFanTris off n).length = n - 2 ∧
        (∀ j, 2 ≤ j → j < n →
          (windingFanTris off n)[j - 2]? = some (off + (j - 1), off + j, off)))
    ∧ (∀ windings : List (List Vec3), (∀ w ∈ windings, 3 ≤ w.length) → ∀ off : Nat,
        (windingsTris windings off).length = (windings.map (fun w => w.length - 2)).sum) := by
  refine ⟨?_, ?_, ?_, ?_, ?_⟩
  · intro f hf
    have hlt : ¬ f.numedges < 3 := not_lt.mpr hf
    refine ⟨faceFanTris_length f, ?_⟩
    intro j hj2 hjn
    have hidx : j - 2 < f.numedges - 2 := by omega
    have h1 : j - 2 + 1 = j - 1 := by omega
    have h2 : j - 2 + 2 = j := by omega
    simp [faceFanTris, hlt, List.getElem?_range hidx, h1, h2]
  · intro f hf
    simp [faceFanTris, hf]
  · intro lookupModel geomID faces
    simp only [CreateGeometry]
    rw [List.length_flatMap]
    congr 1
    exact List.map_congr_left (fun f _ => faceFanTris_length f)
  · intro off n hn
    constructor
    · simp [windingFanTris]
    · intro j hj2 hjn
      have hidx : j - 2 < n - 2 := by omega
      have h1 : j - 2 + 1 = j - 1 := by omega
      have h2 : j - 2 + 2 = j := by omega
      simp [windingFanTris, List.getElem?_range hidx, h1, h2]
  · intro windings hall
    induction windings with
    | nil => intro off; simp [windingsTris]
    | cons w rest ih =>
        intro off
        have hrest : ∀ w ∈ rest, 3 ≤ w.length :=
          fun x hx => hall x (List.mem_cons_of_mem w hx)
        simp [windingsTris, windingFanTris, ih hrest]

/-- **C6** — Round-trip: for each of the three classified groups, the `i`-th
emitted triangle's source face equals `triToFace[i]` and its owning model
equals `triToModelinfo[i]`, and reverse lookup through `Embree_LookupFace` /
`Embree_LookupModelinfo` at `(groupId, i)` returns exactly the `(face, model)`
pair from which that triangle was constructed. -/
theorem C6_roundtrip (lookupModel : bsp2_dface_t → Option modelinfo_t)
    (skyfaces solidfaces filterfaces : List bsp2_dface_t)
    (skipwindings : List (List Vec3)) (groupFaces : List bsp2_dface_t) (gid : Nat)
    (hgroup : (gid = 0 ∧ groupFaces = skyfaces) ∨ (gid = 1 ∧ groupFaces = solidfaces) ∨
      (gid = 2 ∧ groupFaces = filterfaces))
    (i : Nat) (tag : (Nat × Nat × Nat) × bsp2_dface_t × Option modelinfo_t)
    (htag : (CreateGeometryTagged lookupModel groupFaces)[i]? = some tag) :
    (CreateGeometry lookupModel gid groupFaces).2[i]? = some tag.1 ∧
    (CreateGeometry lookupModel gid groupFaces).1.triToFace[i]? = some tag.2.1 ∧
    (CreateGeometry lookupModel gid groupFaces).1.triToModelinfo[i]? = some tag.2.2 ∧
    Embree_LookupFace
      (Embree_TraceInit_scene lookupModel skyfaces solidfaces filterfaces skipwindings)
      gid i = some tag.2.1 ∧
    Embree_LookupModelinfo
      (Embree_TraceInit_scene lookupModel skyfaces solidfaces filterfaces skipwindings)
      gid i = some tag.2.2 := by
  have htri : (CreateGeometry lookupModel gid groupFaces).2[i]? = some tag.1 := by
    rw [← tagged_map_tri lookupModel gid groupFaces, List.getElem?_map, htag]
    rfl
  have hface : (CreateGeometry lookupModel gid groupFaces).1.triToFace[i]? = some tag.2.1 := by
    rw [← tagged_map_face lookupModel gid groupFaces, List.getElem?_map, htag]
    rfl
  have hmodel : (CreateGeometry lookupModel gid groupFaces).1.triToModelinfo[i]? = some tag.2.2 := by
    rw [← tagged_map_model lookupModel gid groupFaces, List.getElem?_map, htag]
    rfl
  have hinfo : Embree_SceneinfoForGeomID
      (Embree_TraceInit_scene lookupModel skyfaces solidfaces filterfaces skipwindings) gid =
      some (CreateGeometry lookupModel gid groupFaces).1 := by
    rcases hgroup with ⟨hg, hf⟩ | ⟨hg, hf⟩ | ⟨hg, hf⟩ <;>
      subst hg <;> subst hf <;>
        simp [Embree_SceneinfoForGeomID, Embree_TraceInit_scene, CreateGeometry]
  refine ⟨htri, hface, hmodel, ?_, ?_⟩
  · rw [Embree_LookupFace, hinfo]
    exact hface
  · rw [Embree_LookupModelinfo, hinfo]
    exact hmodel

/-! ## Concrete witness scenarios for the scene-builder claims -/

/-- a quad face (4 edges, vertex indices 10..13) -/
def wQuadFace : bsp2_dface_t :=
  { id := 3, vertexIndices := [10, 11, 12, 13], texname := ['w'],
    contents := 0, contentsIsTranslucent := false, texinfoValue := 0,
    extflags := { noshadow := false, lightAlphaBits := 0 } }

/-- a triangle winding -/
def wTriWinding : List Vec3 := [⟨0,0,0⟩, ⟨1,0,0⟩, ⟨0,1,0⟩]

/-- a quad winding -/
def wQuadWinding : List Vec3 := [⟨0,0,1⟩, ⟨1,0,1⟩, ⟨1,1,1⟩, ⟨0,1,1⟩]

/-- Witness for C7: the quad face yields 2 fan triangles, the `j = 3` one
being `(v2, v3, v0) = (12, 13, 10)`; a triangle-plus-quad winding set yields
`1 + 2 = 3` triangles. -/
theorem C7_fan_triangulation_witness :
    (faceFanTris wQuadFace).length = 2 ∧
    (faceFanTris wQuadFace)[1]? = some (12, 13, 10) ∧
    (windingsTris [wTriWinding, wQuadWinding] 0).length = 3 := by
  have h := C7_fan_triangulation
  have h1 := h.1 wQuadFace (by decide)
  refine ⟨h1.1.trans (by decide), ?_, ?_⟩
  · exact (h1.2 3 (by decide) (by decide)).trans (by decide)
  · exact (h.2.2.2.2 [wTriWinding, wQuadWinding] (by decide) 0).trans (by decide)

/-- a constant model-lookup collaborator for the round-trip witness -/
def wLookupModel : bsp2_dface_t → Option modelinfo_t := fun _ => some wOtherModel

/-- Witness for C6: in a scene whose solid group holds the quad face, reverse
lookup of `(1, 0)` returns the quad face and its looked-up model. -/
theorem C6_roundtrip_witness :
    Embree_LookupFace (Embree_TraceInit_scene wLookupModel [] [wQuadFace] [] []) 1 0 =
      some wQuadFace ∧
    Embree_LookupModelinfo (Embree_TraceInit_scene wLookupModel [] [wQuadFace] [] []) 1 0 =
      some (some wOtherModel) := by
  have h := C6_roundtrip wLookupModel [] [wQuadFace] [] [] [wQuadFace] 1
    (Or.inr (Or.inl ⟨rfl, rfl⟩)) 0 ((11, 12, 10), wQuadFace, some wOtherModel) (by decide)
  exact ⟨h.2.2.2.1, h.2.2.2.2⟩

/-! ## Batched tracing (`tracePushedRaysOcclusion`) -/

/-- `rtcOccluded1M` for one ray of the batch: the ray (index `j`, candidate
hits `hits`) is traced with context `ray_source_info ctx2(this, self)`; the
filter may mutate the stream's color / dynamic-style arrays through the
context, and when the ray is occluded the backend writes `geomID = 0` into
the ray slot (the OCCLUSION filter sets `RTCRayN_geomID(ray) = 0` on
accept). -/
def traceStreamRay (q2 : Bool) (s : raystream_embree_t) (self : Option modelinfo_t)
    (j : Nat) (hits : List TraceHit) : raystream_embree_t :=
  let res := traceOcclusion q2 ⟨some s, self, 0⟩ hits
  let s2 := res.2.raystream.getD s
  let oldRay := s2.rays.getD j (SetupRay 0 ⟨0,0,0⟩ ⟨0,0,0⟩ 0)
  if res.1 = true then { s2 with rays := s2.rays.set j { oldRay with geomID := some 0 } }
  else s2

/-- `tracePushedRaysOcclusion`: traces the `_numrays` pushed rays as one
batched query (a no-op when no rays are pushed — the empty fold).
`sceneHits j` abstracts the committed scene: the candidate hits the traversal
presents to ray `j`. -/
def raystream_embree_t.tracePushedRaysOcclusion (s : raystream_embree_t) (q2 : Bool)
    (self : Option modelinfo_t) (sceneHits : Nat → List TraceHit) : raystream_embree_t :=
  (List.range s.numrays).foldl (fun acc j => traceStreamRay q2 acc self j (sceneHits j)) s

lemma filterCandidate_stream_counts (q2 : Bool) (ctx : ray_source_info) (h : HitData)
    (rs : raystream_embree_t) (hrs : ctx.raystream = some rs) :
    ∃ rs2, (filterCandidate q2 ctx h).2.raystream = some rs2 ∧
      rs2.numrays = rs.numrays ∧ rs2.maxrays = rs.maxrays := by
  unfold filterCandidate
  rcases h.hit_modelinfo with - | hm
  · exact ⟨rs, hrs, rfl, rfl⟩
  · dsimp only
    by_cases h1 : hm.shadowworldonly = true ∧ sourceIsWorld ctx = false
    · rw [if_pos h1]; exact ⟨rs, hrs, rfl, rfl⟩
    rw [if_neg h1]
    by_cases h2 : hm.shadowself = true ∧ ctx.self ≠ some hm
    · rw [if_pos h2]; exact ⟨rs, hrs, rfl, rfl⟩
    rw [if_neg h2]
    by_cases h3 : hm.switchableshadow = true
    · rw [if_pos h3]
      simp only [AddDynamicOccluderToRay, hrs]
      exact ⟨_, rfl, rfl, rfl⟩
    rw [if_neg h3]
    by_cases h4 : (hitIsFence q2 h || hitIsGlass q2 hm h) = true
    · rw [if_pos h4]
      by_cases h5 : hitIsGlass q2 hm h = true
      · rw [if_pos h5]
        by_cases h6 : Vec3.dot h.rayDir h.geomNormal < 0
        · simp only [if_pos h6]
          simp only [AddGlassToRay, hrs]
          exact ⟨_, rfl, rfl, rfl⟩
        · simp only [if_neg h6]
          exact ⟨rs, hrs, rfl, rfl⟩
      · rw [if_neg h5]
        by_cases h7 : hitIsFence q2 h = true
        · rw [if_pos h7]
          by_cases h8 : h.sample.a < 255
          · rw [if_pos h8]; exact ⟨rs, hrs, rfl, rfl⟩
          · rw [if_neg h8]; exact ⟨rs, hrs, rfl, rfl⟩
        · rw [if_neg h7]; exact ⟨rs, hrs, rfl, rfl⟩
    · rw [if_neg h4]; exact ⟨rs, hrs, rfl, rfl⟩

lemma traceOcclusion_stream_counts (q2 : Bool) :
    ∀ (hits : List TraceHit) (ctx : ray_source_info) (rs : raystream_embree_t),
      ctx.raystream = some rs →
      ∃ rs2, (traceOcclusion q2 ctx hits).2.raystream = some rs2 ∧
        rs2.numrays = rs.numrays ∧ rs2.maxrays = rs.maxrays := by
  intro hits
  induction hits with
  | nil => intro ctx rs hrs; exact ⟨rs, hrs, rfl, rfl⟩
  | cons h rest ih =>
      intro ctx rs hrs
      by_cases hfil : h.filtered = true
      · obtain ⟨rs1, hrs1, hn1, hm1⟩ := filterCandidate_stream_counts q2 ctx h.data rs hrs
        rcases hfc : filterCandidate q2 ctx h.data with ⟨acc, ctx1⟩
        rw [hfc] at hrs1
        rcases acc with - | -
        · obtain ⟨rs2, hrs2, hn2, hm2⟩ := ih ctx1 rs1 hrs1
          refine ⟨rs2, ?_, hn2.trans hn1, hm2.trans hm1⟩
          simp only [traceOcclusion, hfil, if_pos, hfc]
          exact hrs2
        · refine ⟨rs1, ?_, hn1, hm1⟩
          simp only [traceOcclusion, hfil, if_pos, hfc]
          exact hrs1
      · refine ⟨rs, ?_, rfl, rfl⟩
        simp only [traceOcclusion, hfil]
        simp only [Bool.false_eq_true, if_neg]
        exact hrs

lemma traceStreamRay_counts (q2 : Bool) (s : raystream_embree_t) (self : Option modelinfo_t)
    (j : Nat) (hits : List TraceHit) :
    (traceStreamRay q2 s self j hits).numrays = s.numrays ∧
    (traceStreamRay q2 s self j hits).maxrays = s.maxrays := by
  obtain ⟨rs2, hrs2, hn, hm⟩ :=
    traceOcclusion_stream_counts q2 hits ⟨some s, self, 0⟩ s rfl
  unfold traceStreamRay
  dsimp only
  rw [hrs2]
  by_cases hocc : (traceOcclusion q2 ⟨some s, self, 0⟩ hits).1 = true
  · simp [hocc, hn, hm]
  · simp [hocc, hn, hm]

lemma tracePushed_counts (q2 : Bool) (self : Option modelinfo_t)
    (sceneHits : Nat → List TraceHit) :
    ∀ (l : List Nat) (acc : raystream_embree_t),
      ((l.foldl (fun acc j => traceStreamRay q2 acc self j (sceneHits j)) acc).numrays = acc.numrays
      ∧ (l.foldl (fun acc j => traceStreamRay q2 acc self j (sceneHits j)) acc).maxrays = acc.maxrays) := by
  intro l
  induction l with
  | nil => intro acc; exact ⟨rfl, rfl⟩
  | cons j rest ih =>
      intro acc
      obtain ⟨hn, hm⟩ := traceStreamRay_counts q2 acc self j (sceneHits j)
      obtain ⟨hn2, hm2⟩ := ih (traceStreamRay q2 acc self j (sceneHits j))
      exact ⟨by simpa [hn] using hn2, by simpa [hm] using hm2⟩

/-- **C9** — Ray-stream capacity invariant: pushing at (or past) capacity is
the fatal `Q_assert`; a successful push increments the count by exactly one
and retains the capacity; tracing the pushed rays changes neither count nor
capacity; `clearPushedRays` resets the count to zero leaving capacity and all
allocated buffers in place — so `count ≤ capacity` (counts are naturals, so
`0 ≤ count` throughout) is preserved by every stream operation. -/
theorem C9_raystream_invariant (q2 : Bool) :
    (∀ (s : raystream_embree_t) (i : Int) (origin dir : Vec3) (dist : ℚ)
        (color normalcontrib : Option Vec3), s.numrays = s.maxrays →
      s.pushRay i origin dir dist color normalcontrib = none)
    ∧ (∀ (s s2 : raystream_embree_t) (i : Int) (origin dir : Vec3) (dist : ℚ)
        (color normalcontrib : Option Vec3),
        s.pushRay i origin dir dist color normalcontrib = some s2 →
        s2.numrays = s.numrays + 1 ∧ s2.maxrays = s.maxrays ∧ s2.numrays ≤ s2.maxrays)
    ∧ (∀ (s : raystream_embree_t) (self : Option modelinfo_t)
        (sceneHits : Nat → List TraceHit),
        (s.tracePushedRaysOcclusion q2 self sceneHits).numrays = s.numrays ∧
        (s.tracePushedRaysOcclusion q2 self sceneHits).maxrays = s.maxrays)
    ∧ (∀ s : raystream_embree_t, s.clearPushedRays.numrays = 0 ∧
        s.clearPushedRays.maxrays = s.maxrays ∧ s.clearPushedRays.rays = s.rays ∧
        s.clearPushedRays.rayColors = s.rayColors ∧
        s.clearPushedRays.rayDynamicStyles = s.rayDynamicStyles)
    ∧ (∀ s : raystream_embree_t, s.numrays ≤ s.maxrays →
        (∀ (s2 : raystream_embree_t) (i : Int) (origin dir : Vec3) (dist : ℚ)
            (color normalcontrib : Option Vec3),
          s.pushRay i origin dir dist color normalcontrib = some s2 →
          s2.numrays ≤ s2.maxrays)
        ∧ (∀ (self : Option modelinfo_t) (sceneHits : Nat → List TraceHit),
            (s.tracePushedRaysOcclusion q2 self sceneHits).numrays ≤
              (s.tracePushedRaysOcclusion q2 self sceneHits).maxrays)
        ∧ s.clearPushedRays.numrays ≤ s.clearPushedRays.maxrays) := by
  have hpush : ∀ (s s2 : raystream_embree_t) (i : Int) (origin dir : Vec3) (dist : ℚ)
      (color normalcontrib : Option Vec3),
      s.pushRay i origin dir dist color normalcontrib = some s2 →
      s2.numrays = s.numrays + 1 ∧ s2.maxrays = s.maxrays ∧ s2.numrays ≤ s2.maxrays := by
    intro s s2 i origin dir dist color normalcontrib hp
    unfold raystream_embree_t.pushRay at hp
    by_cases hlt : s.numrays < s.maxrays
    · rw [if_pos hlt] at hp
      obtain rfl := (Option.some.injEq _ _).mp hp
      refine ⟨rfl, rfl, ?_⟩
      show s.numrays + 1 ≤ s.maxrays
      omega
    · rw [if_neg hlt] at hp
      exact absurd hp (by simp)
  have htrace : ∀ (s : raystream_embree_t) (self : Option modelinfo_t)
      (sceneHits : Nat → List TraceHit),
      (s.tracePushedRaysOcclusion q2 self sceneHits).numrays = s.numrays ∧
      (s.tracePushedRaysOcclusion q2 self sceneHits).maxrays = s.maxrays := by
    intro s self sceneHits
    exact tracePushed_counts q2 self sceneHits (List.range s.numrays) s
  refine ⟨?_, hpush, htrace, ?_, ?_⟩
  · intro s i origin dir dist color normalcontrib heq
    unfold raystream_embree_t.pushRay
    rw [if_neg (by omega)]
  · intro s
    exact ⟨rfl, rfl, rfl, rfl, rfl⟩
  · intro s hinv
    refine ⟨?_, ?_, ?_⟩
    · intro s2 i origin dir dist color normalcontrib hp
      exact (hpush s s2 i origin dir dist color normalcontrib hp).2.2
    · intro self sceneHits
      obtain ⟨hn, hm⟩ := htrace s self sceneHits
      omega
    · simp [raystream_embree_t.clearPushedRays]

/-- the state of a fresh capacity-1 stream after one successful push -/
def wPushed1 : raystream_embree_t :=
  { maxrays := 1, rays := [SetupRay 0 ⟨0,0,0⟩ ⟨0,0,1⟩ 8], raysMaxdist := [8],
    pointIndices := [0], rayColors := [⟨0,0,0⟩], rayNormalcontribs := [⟨0,0,0⟩],
    rayDynamicStyles := [0], numrays := 1 }

/-- Witness for C9: a capacity-1 stream accepts one push (count 1) and
refuses the second; tracing leaves the count at 1; clearing resets it to 0
with capacity still 1. -/
theorem C9_raystream_invariant_witness :
    (raystream_embree_t.mk0 1).pushRay 0 ⟨0,0,0⟩ ⟨0,0,1⟩ 8 none none = some wPushed1 ∧
    wPushed1.numrays = 1 ∧ wPushed1.maxrays = 1 ∧
    wPushed1.pushRay 1 ⟨0,0,0⟩ ⟨0,1,0⟩ 8 none none = none ∧
    (wPushed1.tracePushedRaysOcclusion false none (fun _ => [])).numrays = 1 ∧
    wPushed1.clearPushedRays.numrays = 0 ∧ wPushed1.clearPushedRays.maxrays = 1 := by
  have h := C9_raystream_invariant false
  refine ⟨by decide, by decide, by decide, ?_, ?_, by decide, by decide⟩
  · exact h.1 wPushed1 1 ⟨0,0,0⟩ ⟨0,1,0⟩ 8 none none (by decide)
  · exact ((h.2.2.1 wPushed1 none (fun _ => [])).1).trans (by decide)

/-! ## C5: reverse lookup for the skip geometry -/

/-- the concrete scene of the C5 counterexample: empty face groups plus one
skip winding, so the skip geometry exists and holds geometry id 3 -/
def wSkipScene : EmbreeScene := Embree_TraceInit_scene wLookupModel [] [] [] [wTriWinding]

/-- **C5 (counterexample)** — The claim says reverse lookup on the skip
geometry "yields a null face and a null model rather than failing"; in the
code the skip geometry's id is simply not one of the three recorded
`sceneinfo` ids, so `Embree_SceneinfoForGeomID` hits `Error("unexpected
geomID")` — reverse lookup fails instead of returning null/null. -/
theorem C5_counterexample :
    wSkipScene.skipGeomID = some 3 ∧
    Embree_SceneinfoForGeomID wSkipScene 3 = none ∧
    Embree_LookupFace wSkipScene 3 0 = none ∧
    Embree_LookupModelinfo wSkipScene 3 0 = none :=
  ⟨rfl, rfl, rfl, rfl⟩

/-- **C5 (amended)** — `CreateGeometryFromWindings` records no face/model
mapping and no `sceneinfo` for the reconstructed skip geometry, so the skip
geometry's group identifier is unrecognized by reverse lookup: requesting it
— like requesting any group identifier other than the three classified
groups' — is the fatal "unexpected geomID" configuration error, for every
primitive index. -/
theorem C5_skip_lookup_is_fatal (lookupModel : bsp2_dface_t → Option modelinfo_t)
    (skyfaces solidfaces filterfaces : List bsp2_dface_t)
    (skipwindings : List (List Vec3)) (hne : skipwindings ≠ []) :
    (Embree_TraceInit_scene lookupModel skyfaces solidfaces filterfaces skipwindings).skipGeomID
      = some 3
    ∧ Embree_SceneinfoForGeomID
        (Embree_TraceInit_scene lookupModel skyfaces solidfaces filterfaces skipwindings) 3 = none
    ∧ (∀ p : Nat,
        Embree_LookupFace
          (Embree_TraceInit_scene lookupModel skyfaces solidfaces filterfaces skipwindings) 3 p
          = none ∧
        Embree_LookupModelinfo
          (Embree_TraceInit_scene lookupModel skyfaces solidfaces filterfaces skipwindings) 3 p
          = none)
    ∧ (∀ g : Nat, g ≠ 0 → g ≠ 1 → g ≠ 2 →
        Embree_SceneinfoForGeomID
          (Embree_TraceInit_scene lookupModel skyfaces solidfaces filterfaces skipwindings) g
          = none) := by
  have hinfo : ∀ g : Nat, g ≠ 0 → g ≠ 1 → g ≠ 2 →
      Embree_SceneinfoForGeomID
        (Embree_TraceInit_scene lookupModel skyfaces solidfaces filterfaces skipwindings) g
        = none := by
    intro g h0 h1 h2
    simp [Embree_SceneinfoForGeomID, Embree_TraceInit_scene, CreateGeometry, h0, h1, h2]
  refine ⟨?_, hinfo 3 (by omega) (by omega) (by omega), ?_, hinfo⟩
  · rcases skipwindings with - | ⟨w, ws⟩
    · exact absurd rfl hne
    · rfl
  · intro p
    constructor
    · rw [Embree_LookupFace, hinfo 3 (by omega) (by omega) (by omega)]
    · rw [Embree_LookupModelinfo, hinfo 3 (by omega) (by omega) (by omega)]

/-- Witness for the amended C5: in the concrete skip scene, face lookup at
primitive 5 of the skip group fails, as does resolving the unrelated group
identifier 7. -/
theorem C5_skip_lookup_is_fatal_witness :
    Embree_LookupFace wSkipScene 3 5 = none ∧
    Embree_SceneinfoForGeomID wSkipScene 7 = none := by
  have h := C5_skip_lookup_is_fatal wLookupModel [] [] [] [wTriWinding] (by simp)
  exact ⟨(h.2.2.1 5).1, h.2.2.2 7 (by decide) (by decide) (by decide)⟩

/-! ## Skip-Model Reconstructor (`Leaf_MakeFaces`)

The winding library (`polylib`) is an external collaborator; the spec
specifies it only at its interface: `BasePolygonForPlane(normal, dist) ->
polygon` seeding the reconstruction with "the plane's unbounded half-space
boundary", and `ClipPolygon(polygon, planeNormal, planeDist) ->
(frontPart?, backPart?)`, where a polygon that clips away entirely comes back
as a missing part.  Because the spec's seed polygon is *unbounded*, a finite
vertex list cannot represent it; the definitions below (marked `Modelled
from the spec:`) therefore represent a winding by the point set it denotes —
the face plane together with the half-space constraints accumulated by
clipping — and decide "clips away entirely" (emptiness of that set) by a
verified Fourier-Motzkin elimination over exact rationals. -/

/-- `plane_t` -/
structure plane_t where
  normal : Vec3
  dist : ℚ
deriving DecidableEq, Repr

/-! ### A verified emptiness test for systems of linear constraints

A constraint list `cs : List plane_t` denotes the system
`∀ c ∈ cs, c.dist ≤ c.normal ⬝ v` over `v : Vec3`.  `satDec` decides its
satisfiability by eliminating `z`, then `y`, then `x` (Fourier-Motzkin);
`satDec_iff` proves the decision correct in both directions. -/

/-- satisfaction of a 3-variable constraint system -/
def sat3 (cs : List plane_t) (v : Vec3) : Prop := ∀ c ∈ cs, c.dist ≤ Vec3.dot c.normal v

/-- a 2-variable constraint `a*x + b*y ≥ d` -/
structure lin2 where
  a : ℚ
  b : ℚ
  d : ℚ
deriving DecidableEq, Repr

/-- a 1-variable constraint `a*x ≥ d` -/
structure lin1 where
  a : ℚ
  d : ℚ
deriving DecidableEq, Repr

def sat2 (cs : List lin2) (x y : ℚ) : Prop := ∀ c ∈ cs, c.d ≤ c.a * x + c.b * y

def sat1 (cs : List lin1) (x : ℚ) : Prop := ∀ c ∈ cs, c.d ≤ c.a * x

/-- Fourier-Motzkin elimination of `z`: constraints without `z` pass through;
each (lower bound, upper bound) pair combines into a `z`-free consequence. -/
def elimZ (cs : List plane_t) : List lin2 :=
  (cs.filter (fun c => c.normal.z = 0)).map (fun c => ⟨c.normal.x, c.normal.y, c.dist⟩) ++
  (cs.filter (fun c => 0 < c.normal.z)).flatMap (fun l =>
    (cs.filter (fun c => c.normal.z < 0)).map (fun u =>
      ⟨l.normal.z * u.normal.x - u.normal.z * l.normal.x,
       l.normal.z * u.normal.y - u.normal.z * l.normal.y,
       l.normal.z * u.dist - u.normal.z * l.dist⟩))

/-- Fourier-Motzkin elimination of `y`. -/
def elimY (cs : List lin2) : List lin1 :=
  (cs.filter (fun c => c.b = 0)).map (fun c => ⟨c.a, c.d⟩) ++
  (cs.filter (fun c => 0 < c.b)).flatMap (fun l =>
    (cs.filter (fun c => c.b < 0)).map (fun u =>
      ⟨l.b * u.a - u.b * l.a, l.b * u.d - u.b * l.d⟩))

/-- Fourier-Motzkin elimination of `x`: what remains are constant
constraints `0 ≥ d`. -/
def elimX (cs : List lin1) : List ℚ :=
  (cs.filter (fun c => c.a = 0)).map (fun c => c.d) ++
  (cs.filter (fun c => 0 < c.a)).flatMap (fun l =>
    (cs.filter (fun c => c.a < 0)).map (fun u => l.a * u.d - u.a * l.d))

/-- the satisfiability decision: eliminate all three variables and check the
remaining constant constraints -/
def satDec (cs : List plane_t) : Bool :=
  (elimX (elimY (elimZ cs))).all (fun d => decide (d ≤ 0))

/-- the value chosen for an eliminated variable: at least every lower bound,
and (via the pair constraints) at most every upper bound -/
def chooseVal (lows ups : List ℚ) : ℚ := lows.foldr max (ups.foldr min 0)

lemma le_foldr_max (l : List ℚ) (init : ℚ) : ∀ a ∈ l, a ≤ l.foldr max init := by
  induction l with
  | nil => simp
  | cons b l ih =>
      intro a ha
      rcases List.mem_cons.mp ha with rfl | ha2
      · exact le_max_left _ _
      · exact le_trans (ih a ha2) (le_max_right _ _)

lemma foldr_max_le (l : List ℚ) (init u : ℚ) (h0 : init ≤ u) (h : ∀ a ∈ l, a ≤ u) :
    l.foldr max init ≤ u := by
  induction l with
  | nil => exact h0
  | cons b l ih =>
      simp only [List.foldr_cons]
      exact max_le (h b (List.mem_cons_self b l))
        (ih (fun a ha => h a (List.mem_cons_of_mem b ha)))

lemma foldr_min_le (l : List ℚ) (init : ℚ) : ∀ a ∈ l, l.foldr min init ≤ a := by
  induction l with
  | nil => simp
  | cons b l ih =>
      intro a ha
      rcases List.mem_cons.mp ha with rfl | ha2
      · exact min_le_left _ _
      · exact le_trans (min_le_right _ _) (ih a ha2)

lemma chooseVal_ge (lows ups : List ℚ) : ∀ a ∈ lows, a ≤ chooseVal lows ups :=
  le_foldr_max lows _

lemma chooseVal_le (lows ups : List ℚ) (h : ∀ a ∈ lows, ∀ u ∈ ups, a ≤ u) :
    ∀ u ∈ ups, chooseVal lows ups ≤ u := by
  intro u hu
  exact foldr_max_le _ _ _ (foldr_min_le ups 0 u hu) (fun a ha => h a ha u hu)

lemma elimZ_sound (cs : List plane_t) (v : Vec3) (h : sat3 cs v) :
    sat2 (elimZ cs) v.x v.y := by
  intro c2 hc2
  rcases List.mem_append.mp hc2 with hz | hp
  · obtain ⟨c, hcf, rfl⟩ := List.mem_map.mp hz
    obtain ⟨hcmem, hc0⟩ := List.mem_filter.mp hcf
    have hz0 : c.normal.z = 0 := by simpa using hc0
    have hcv := h c hcmem
    simp only [Vec3.dot] at hcv
    rw [hz0] at hcv
    show c.dist ≤ c.normal.x * v.x + c.normal.y * v.y
    linarith
  · obtain ⟨l, hlf, hc2m⟩ := List.mem_flatMap.mp hp
    obtain ⟨u, huf, rfl⟩ := List.mem_map.mp hc2m
    obtain ⟨hlmem, hl0⟩ := List.mem_filter.mp hlf
    obtain ⟨humem, hu0⟩ := List.mem_filter.mp huf
    have hlz : 0 < l.normal.z := by simpa using hl0
    have huz : u.normal.z < 0 := by simpa using hu0
    have hlv := h l hlmem
    have huv := h u humem
    simp only [Vec3.dot] at hlv huv
    show l.normal.z * u.dist - u.normal.z * l.dist ≤
      (l.normal.z * u.normal.x - u.normal.z * l.normal.x) * v.x +
      (l.normal.z * u.normal.y - u.normal.z * l.normal.y) * v.y
    nlinarith [mul_le_mul_of_nonneg_left huv (le_of_lt hlz),
      mul_le_mul_of_nonneg_left hlv (by linarith : (0:ℚ) ≤ -u.normal.z)]

lemma elimZ_complete (cs : List plane_t) (x y : ℚ) (h : sat2 (elimZ cs) x y) :
    ∃ z : ℚ, sat3 cs ⟨x, y, z⟩ := by
  set lows := (cs.filter (fun c => 0 < c.normal.z)).map
    (fun c => (c.dist - c.normal.x * x - c.normal.y * y) / c.normal.z) with hlows
  set ups := (cs.filter (fun c => c.normal.z < 0)).map
    (fun c => (c.dist - c.normal.x * x - c.normal.y * y) / c.normal.z) with hups
  have hlu : ∀ a ∈ lows, ∀ u ∈ ups, a ≤ u := by
    intro a ha u hu
    rw [hlows] at ha
    rw [hups] at hu
    obtain ⟨cl, hclf, rfl⟩ := List.mem_map.mp ha
    obtain ⟨cu, hcuf, rfl⟩ := List.mem_map.mp hu
    obtain ⟨hclmem, hcl0⟩ := List.mem_filter.mp hclf
    obtain ⟨hcumem, hcu0⟩ := List.mem_filter.mp hcuf
    have hclz : 0 < cl.normal.z := by simpa using hcl0
    have hcuz : cu.normal.z < 0 := by simpa using hcu0
    have hpair : (⟨cl.normal.z * cu.normal.x - cu.normal.z * cl.normal.x,
        cl.normal.z * cu.normal.y - cu.normal.z * cl.normal.y,
        cl.normal.z * cu.dist - cu.normal.z * cl.dist⟩ : lin2) ∈ elimZ cs := by
      apply List.mem_append_right
      refine List.mem_flatMap.mpr
        ⟨cl, List.mem_filter.mpr ⟨hclmem, by simpa using hclz⟩, ?_⟩
      exact List.mem_map.mpr ⟨cu, List.mem_filter.mpr ⟨hcumem, by simpa using hcuz⟩, rfl⟩
    have hP := h _ hpair
    simp only at hP
    have hcuz2 : 0 < -cu.normal.z := by linarith
    rw [show (cu.dist - cu.normal.x * x - cu.normal.y * y) / cu.normal.z =
        (-(cu.dist - cu.normal.x * x - cu.normal.y * y)) / (-cu.normal.z) by
      rw [neg_div_neg_eq]]
    rw [div_le_div_iff₀ hclz hcuz2]
    nlinarith [hP]
  refine ⟨chooseVal lows ups, ?_⟩
  intro c hc
  rcases lt_trichotomy c.normal.z 0 with hneg | hzero | hpos
  · have hmem : (c.dist - c.normal.x * x - c.normal.y * y) / c.normal.z ∈ ups := by
      rw [hups]
      exact List.mem_map.mpr ⟨c, List.mem_filter.mpr ⟨hc, by simpa using hneg⟩, rfl⟩
    have hzle := chooseVal_le lows ups hlu _ hmem
    rw [le_div_iff_of_neg hneg] at hzle
    simp only [Vec3.dot]
    show c.dist ≤ c.normal.x * x + c.normal.y * y + c.normal.z * chooseVal lows ups
    nlinarith [hzle]
  · have hmem : (⟨c.normal.x, c.normal.y, c.dist⟩ : lin2) ∈ elimZ cs := by
      apply List.mem_append_left
      exact List.mem_map.mpr ⟨c, List.mem_filter.mpr ⟨hc, by simpa using hzero⟩, rfl⟩
    have hcv := h _ hmem
    simp only at hcv
    simp only [Vec3.dot]
    rw [hzero]
    show c.dist ≤ c.normal.x * x + c.normal.y * y + 0 * chooseVal lows ups
    linarith
  · have hmem : (c.dist - c.normal.x * x - c.normal.y * y) / c.normal.z ∈ lows := by
      rw [hlows]
      exact List.mem_map.mpr ⟨c, List.mem_filter.mpr ⟨hc, by simpa using hpos⟩, rfl⟩
    have hzge := chooseVal_ge lows ups _ hmem
    rw [div_le_iff₀ hpos] at hzge
    simp only [Vec3.dot]
    show c.dist ≤ c.normal.x * x + c.normal.y * y + c.normal.z * chooseVal lows ups
    nlinarith [hzge]

lemma elimY_sound (cs : List lin2) (x y : ℚ) (h : sat2 cs x y) :
    sat1 (elimY cs) x := by
  intro c1 hc1
  rcases List.mem_append.mp hc1 with hz | hp
  · obtain ⟨c, hcf, rfl⟩ := List.mem_map.mp hz
    obtain ⟨hcmem, hc0⟩ := List.mem_filter.mp hcf
    have hb0 : c.b = 0 := by simpa using hc0
    have hcv := h c hcmem
    rw [hb0] at hcv
    show c.d ≤ c.a * x
    linarith
  · obtain ⟨l, hlf, hc1m⟩ := List.mem_flatMap.mp hp
    obtain ⟨u, huf, rfl⟩ := List.mem_map.mp hc1m
    obtain ⟨hlmem, hl0⟩ := List.mem_filter.mp hlf
    obtain ⟨humem, hu0⟩ := List.mem_filter.mp huf
    have hlb : 0 < l.b := by simpa using hl0
    have hub : u.b < 0 := by simpa using hu0
    have hlv := h l hlmem
    have huv := h u humem
    show l.b * u.d - u.b * l.d ≤ (l.b * u.a - u.b * l.a) * x
    nlinarith [mul_le_mul_of_nonneg_left huv (le_of_lt hlb),
      mul_le_mul_of_nonneg_left hlv (by linarith : (0:ℚ) ≤ -u.b)]

lemma elimY_complete (cs : List lin2) (x : ℚ) (h : sat1 (elimY cs) x) :
    ∃ y : ℚ, sat2 cs x y := by
  set lows := (cs.filter (fun c => 0 < c.b)).map (fun c => (c.d - c.a * x) / c.b) with hlows
  set ups := (cs.filter (fun c => c.b < 0)).map (fun c => (c.d - c.a * x) / c.b) with hups
  have hlu : ∀ a ∈ lows, ∀ u ∈ ups, a ≤ u := by
    intro a ha u hu
    rw [hlows] at ha
    rw [hups] at hu
    obtain ⟨cl, hclf, rfl⟩ := List.mem_map.mp ha
    obtain ⟨cu, hcuf, rfl⟩ := List.mem_map.mp hu
    obtain ⟨hclmem, hcl0⟩ := List.mem_filter.mp hclf
    obtain ⟨hcumem, hcu0⟩ := List.mem_filter.mp hcuf
    have hclb : 0 < cl.b := by simpa using hcl0
    have hcub : cu.b < 0 := by simpa using hcu0
    have hpair : (⟨cl.b * cu.a - cu.b * cl.a, cl.b * cu.d - cu.b * cl.d⟩ : lin1) ∈ elimY cs := by
      apply List.mem_append_right
      refine List.mem_flatMap.mpr
        ⟨cl, List.mem_filter.mpr ⟨hclmem, by simpa using hclb⟩, ?_⟩
      exact List.mem_map.mpr ⟨cu, List.mem_filter.mpr ⟨hcumem, by simpa using hcub⟩, rfl⟩
    have hP := h _ hpair
    simp only at hP
    have hcub2 : 0 < -cu.b := by linarith
    rw [show (cu.d - cu.a * x) / cu.b = (-(cu.d - cu.a * x)) / (-cu.b) by rw [neg_div_neg_eq]]
    rw [div_le_div_iff₀ hclb hcub2]
    nlinarith [hP]
  refine ⟨chooseVal lows ups, ?_⟩
  intro c hc
  rcases lt_trichotomy c.b 0 with hneg | hzero | hpos
  · have hmem : (c.d - c.a * x) / c.b ∈ ups := by
      rw [hups]
      exact List.mem_map.mpr ⟨c, List.mem_filter.mpr ⟨hc, by simpa using hneg⟩, rfl⟩
    have hyle := chooseVal_le lows ups hlu _ hmem
    rw [le_div_iff_of_neg hneg] at hyle
    show c.d ≤ c.a * x + c.b * chooseVal lows ups
    nlinarith [hyle]
  · have hmem : (⟨c.a, c.d⟩ : lin1) ∈ elimY cs := by
      apply List.mem_append_left
      exact List.mem_map.mpr ⟨c, List.mem_filter.mpr ⟨hc, by simpa using hzero⟩, rfl⟩
    have hcv := h _ hmem
    simp only at hcv
    rw [hzero]
    show c.d ≤ c.a * x + 0 * chooseVal lows ups
    linarith
  · have hmem : (c.d - c.a * x) / c.b ∈ lows := by
      rw [hlows]
      exact List.mem_map.mpr ⟨c, List.mem_filter.mpr ⟨hc, by simpa using hpos⟩, rfl⟩
    have hyge := chooseVal_ge lows ups _ hmem
    rw [div_le_iff₀ hpos] at hyge
    show c.d ≤ c.a * x + c.b * chooseVal lows ups
    nlinarith [hyge]

lemma elimX_sound (cs : List lin1) (x : ℚ) (h : sat1 cs x) :
    ∀ d ∈ elimX cs, d ≤ 0 := by
  intro d hd
  rcases List.mem_append.mp hd with hz | hp
  · obtain ⟨c, hcf, rfl⟩ := List.mem_map.mp hz
    obtain ⟨hcmem, hc0⟩ := List.mem_filter.mp hcf
    have ha0 : c.a = 0 := by simpa using hc0
    have hcv := h c hcmem
    rw [ha0] at hcv
    linarith
  · obtain ⟨l, hlf, hdm⟩ := List.mem_flatMap.mp hp
    obtain ⟨u, huf, rfl⟩ := List.mem_map.mp hdm
    obtain ⟨hlmem, hl0⟩ := List.mem_filter.mp hlf
    obtain ⟨humem, hu0⟩ := List.mem_filter.mp huf
    have hla : 0 < l.a := by simpa using hl0
    have hua : u.a < 0 := by simpa using hu0
    have hlv := h l hlmem
    have huv := h u humem
    nlinarith [mul_le_mul_of_nonneg_left huv (le_of_lt hla),
      mul_le_mul_of_nonneg_left hlv (by linarith : (0:ℚ) ≤ -u.a)]

lemma elimX_complete (cs : List lin1) (h : ∀ d ∈ elimX cs, d ≤ 0) :
    ∃ x : ℚ, sat1 cs x := by
  set lows := (cs.filter (fun c => 0 < c.a)).map (fun c => c.d / c.a) with hlows
  set ups := (cs.filter (fun c => c.a < 0)).map (fun c => c.d / c.a) with hups
  have hlu : ∀ a ∈ lows, ∀ u ∈ ups, a ≤ u := by
    intro a ha u hu
    rw [hlows] at ha
    rw [hups] at hu
    obtain ⟨cl, hclf, rfl⟩ := List.mem_map.mp ha
    obtain ⟨cu, hcuf, rfl⟩ := List.mem_map.mp hu
    obtain ⟨hclmem, hcl0⟩ := List.mem_filter.mp hclf
    obtain ⟨hcumem, hcu0⟩ := List.mem_filter.mp hcuf
    have hcla : 0 < cl.a := by simpa using hcl0
    have hcua : cu.a < 0 := by simpa using hcu0
    have hpair : cl.a * cu.d - cu.a * cl.d ∈ elimX cs := by
      apply List.mem_append_right
      refine List.mem_flatMap.mpr
        ⟨cl, List.mem_filter.mpr ⟨hclmem, by simpa using hcla⟩, ?_⟩
      exact List.mem_map.mpr ⟨cu, List.mem_filter.mpr ⟨hcumem, by simpa using hcua⟩, rfl⟩
    have hP := h _ hpair
    have hcua2 : 0 < -cu.a := by linarith
    rw [show cu.d / cu.a = (-cu.d) / (-cu.a) by rw [neg_div_neg_eq]]
    rw [div_le_div_iff₀ hcla hcua2]
    nlinarith [hP]
  refine ⟨chooseVal lows ups, ?_⟩
  intro c hc
  rcases lt_trichotomy c.a 0 with hneg | hzero | hpos
  · have hmem : c.d / c.a ∈ ups := by
      rw [hups]
      exact List.mem_map.mpr ⟨c, List.mem_filter.mpr ⟨hc, by simpa using hneg⟩, rfl⟩
    have hxle := chooseVal_le lows ups hlu _ hmem
    rw [le_div_iff_of_neg hneg] at hxle
    show c.d ≤ c.a * chooseVal lows ups
    nlinarith [hxle]
  · have hmem : c.d ∈ elimX cs := by
      apply List.mem_append_left
      exact List.mem_map.mpr ⟨c, List.mem_filter.mpr ⟨hc, by simpa using hzero⟩, rfl⟩
    have hcv := h _ hmem
    rw [hzero]
    show c.d ≤ 0 * chooseVal lows ups
    linarith
  · have hmem : c.d / c.a ∈ lows := by
      rw [hlows]
      exact List.mem_map.mpr ⟨c, List.mem_filter.mpr ⟨hc, by simpa using hpos⟩, rfl⟩
    have hxge := chooseVal_ge lows ups _ hmem
    rw [div_le_iff₀ hpos] at hxge
    show c.d ≤ c.a * chooseVal lows ups
    nlinarith [hxge]

/-- correctness of the satisfiability decision, in both directions -/
theorem satDec_iff (cs : List plane_t) : satDec cs = true ↔ ∃ v : Vec3, sat3 cs v := by
  constructor
  · intro h
    have h0 : ∀ d ∈ elimX (elimY (elimZ cs)), d ≤ 0 := by
      intro d hd
      have := List.all_eq_true.mp h d hd
      simpa using this
    obtain ⟨x, hx⟩ := elimX_complete _ h0
    obtain ⟨y, hy⟩ := elimY_complete _ x hx
    obtain ⟨z, hz⟩ := elimZ_complete _ x y hy
    exact ⟨⟨x, y, z⟩, hz⟩
  · rintro ⟨v, hv⟩
    refine List.all_eq_true.mpr ?_
    intro d hd
    have := elimX_sound _ v.x (elimY_sound _ v.x v.y (elimZ_sound cs v hv)) d hd
    simpa using this

/-! ### Dot-product algebra -/

lemma dot_scale (m : Vec3) (s : ℚ) (a : Vec3) :
    Vec3.dot m (Vec3.scale s a) = s * Vec3.dot m a := by
  rcases m with ⟨mx, my, mz⟩; rcases a with ⟨ax, ay, az⟩
  simp [Vec3.dot, Vec3.scale]; ring

lemma dot_comm (a b : Vec3) : Vec3.dot a b = Vec3.dot b a := by
  rcases a with ⟨ax, ay, az⟩; rcases b with ⟨bx, by_, bz⟩
  simp [Vec3.dot]; ring

lemma dot_neg_left (n v : Vec3) : Vec3.dot (Vec3.scale (-1) n) v = -(Vec3.dot n v) := by
  rw [dot_comm, dot_scale, dot_comm]; ring

lemma dot_lerp (m a b : Vec3) (t : ℚ) :
    Vec3.dot m (Vec3.add a (Vec3.scale t (Vec3.sub b a))) =
      (1 - t) * Vec3.dot m a + t * Vec3.dot m b := by
  rcases m with ⟨mx, my, mz⟩; rcases a with ⟨ax, ay, az⟩; rcases b with ⟨bx, by_, bz⟩
  simp [Vec3.dot, Vec3.add, Vec3.scale, Vec3.sub]; ring

lemma dot_self_ne_zero (n : Vec3) (hn : n ≠ ⟨0, 0, 0⟩) : Vec3.dot n n ≠ 0 := by
  rcases n with ⟨x, y, z⟩
  intro h
  simp only [Vec3.dot] at h
  have hx : x = 0 := by nlinarith [sq_nonneg x, sq_nonneg y, sq_nonneg z]
  have hy : y = 0 := by nlinarith [sq_nonneg x, sq_nonneg y, sq_nonneg z]
  have hz : z = 0 := by nlinarith [sq_nonneg x, sq_nonneg y, sq_nonneg z]
  exact hn (by simp [hx, hy, hz])

/-! ### Windings -/

/-- Modelled from the spec: `winding_t`, the polygon being reconstructed —
"the plane's unbounded half-space boundary" (`plane`) "successively
clipp[ed] against every other accumulated plane" (`clips`), represented by
the data that determine its point set (the seed polygon is unbounded, so it
has no finite vertex list). -/
structure winding_t where
  plane : plane_t
  clips : List plane_t
deriving DecidableEq, Repr

/-- the winding's point set: the points of the face plane on the front
(closed) side of every clipping plane -/
def winding_t.points (w : winding_t) : Set Vec3 :=
  {x | Vec3.dot w.plane.normal x = w.plane.dist ∧
       ∀ c ∈ w.clips, c.dist ≤ Vec3.dot c.normal x}

/-- the winding's point set as a constraint system: the plane equation split
into its two closed half-space constraints, plus the clips -/
def winding_t.constraints (w : winding_t) : List plane_t :=
  w.plane :: ⟨Vec3.scale (-1) w.plane.normal, -w.plane.dist⟩ :: w.clips

lemma mem_points_iff_sat3 (w : winding_t) (v : Vec3) :
    v ∈ w.points ↔ sat3 w.constraints v := by
  simp only [winding_t.points, winding_t.constraints, Set.mem_setOf_eq, sat3]
  constructor
  · rintro ⟨heq, hcl⟩ c hc
    rcases List.mem_cons.mp hc with rfl | hc2
    · exact le_of_eq heq.symm
    rcases List.mem_cons.mp hc2 with rfl | hc3
    · show -w.plane.dist ≤ Vec3.dot (Vec3.scale (-1) w.plane.normal) v
      rw [dot_neg_left, heq]
    · exact hcl c hc3
  · intro h
    have h1 := h w.plane (List.mem_cons_self _ _)
    have h2 := h ⟨Vec3.scale (-1) w.plane.normal, -w.plane.dist⟩
      (List.mem_cons_of_mem _ (List.mem_cons_self _ _))
    rw [show Vec3.dot (⟨Vec3.scale (-1) w.plane.normal, -w.plane.dist⟩ : plane_t).normal v =
        -(Vec3.dot w.plane.normal v) from dot_neg_left _ _] at h2
    have h3 : -w.plane.dist ≤ -(Vec3.dot w.plane.normal v) := h2
    refine ⟨by linarith [h1, h3], ?_⟩
    intro c hc
    exact h c (List.mem_cons_of_mem _ (List.mem_cons_of_mem _ hc))

/-- Modelled from the spec: `BasePolygonForPlane(normal, dist) -> polygon`,
"the plane's unbounded half-space boundary" — the whole plane, no clips
yet. -/
def BaseWindingForPlane (normal : Vec3) (dist : ℚ) : winding_t := ⟨⟨normal, dist⟩, []⟩

/-- Modelled from the spec: `ClipPolygon(polygon, planeNormal, planeDist) ->
(frontPart?, backPart?)`.  The front part keeps the closed front side
(`planeNormal ⬝ x ≥ planeDist`), the back part the closed back side; a part
"that clips away entirely" (its point set becomes empty, decided by
`satDec`) comes back as `none`. -/
def ClipWinding (w : winding_t) (normal : Vec3) (dist : ℚ) :
    Option winding_t × Option winding_t :=
  let front : winding_t := ⟨w.plane, w.clips ++ [⟨normal, dist⟩]⟩
  let back : winding_t := ⟨w.plane, w.clips ++ [⟨Vec3.scale (-1) normal, -dist⟩]⟩
  ((if satDec front.constraints = true then some front else none),
   (if satDec back.constraints = true then some back else none))

/-- The clipping loop of `Leaf_MakeFaces`: successively clip the winding by
each plane, keeping the front part and discarding the back (`free(back);
winding = front;`); once everything is clipped away (`winding == nullptr`)
the loop result stays null. -/
def clipChain (w0 : Option winding_t) (ps : List plane_t) : Option winding_t :=
  ps.foldl (fun acc p =>
    match acc with
    | none => none
    | some w => (ClipWinding w p.normal p.dist).1) w0

/-- the `i`-th accumulated plane (valid for `i < planes.length`) -/
def planeAt (planes : List plane_t) (i : Nat) : plane_t := planes.getD i ⟨⟨0, 0, 0⟩, 0⟩

/-- The `plane2` loop of `Leaf_MakeFaces` skips exactly the current element
(`&plane2 == &plane` compares addresses, i.e. positions): all planes other
than the one at position `i`, in order. -/
def otherPlanes (planes : List plane_t) (i : Nat) : List plane_t :=
  ((List.range planes.length).filter (fun j => j ≠ i)).map (planeAt planes)

/-- The polygon `Leaf_MakeFaces` constructs for the plane at position `i`:
flip the inward-facing plane to the outward-facing face plane, seed from its
base winding, clip by every other accumulated plane. -/
def leafFaceWinding (planes : List plane_t) (i : Nat) : Option winding_t :=
  let plane := planeAt planes i
  let faceNormal := Vec3.scale (-1) plane.normal
  let faceDist := -plane.dist
  clipChain (some (BaseWindingForPlane faceNormal faceDist)) (otherPlanes planes i)

/-- `Leaf_MakeFaces`: one candidate polygon per accumulated plane, in plane
order; a polygon that clips away entirely is silently dropped. -/
def Leaf_MakeFaces (planes : List plane_t) : List winding_t :=
  (List.range planes.length).filterMap (leafFaceWinding planes)

/-- the closed front half-space of an (inward-facing) plane -/
def halfSpace (p : plane_t) : Set Vec3 := {x | p.dist ≤ Vec3.dot p.normal x}

/-- The surviving polygon region the spec describes for the plane at
position `i` ("starting from the plane's unbounded half-space boundary and
successively clipping it against every other accumulated plane"): the
plane's boundary intersected with every other plane's closed front
half-space. -/
def idealFace (planes : List plane_t) (i : Nat) : Set Vec3 :=
  {x | Vec3.dot (planeAt planes i).normal x = (planeAt planes i).dist ∧
       ∀ j, j < planes.length → j ≠ i → x ∈ halfSpace (planeAt planes j)}

/-! ### The clip chain -/

lemma clipChain_none (ps : List plane_t) : clipChain none ps = none := by
  induction ps with
  | nil => rfl
  | cons p ps ih => simpa [clipChain] using ih

lemma clipChain_some_shape :
    ∀ (ps : List plane_t) (w r : winding_t), clipChain (some w) ps = some r →
      r = ⟨w.plane, w.clips ++ ps⟩ ∧ (ps ≠ [] → satDec r.constraints = true) := by
  intro ps
  induction ps with
  | nil =>
      intro w r h
      obtain rfl : w = r := (Option.some.injEq _ _).mp h
      refine ⟨?_, fun h0 => absurd rfl h0⟩
      cases w
      simp
  | cons p ps ih =>
      intro w r h
      have hstep : clipChain (some w) (p :: ps) =
          clipChain ((ClipWinding w p.normal p.dist).1) ps := rfl
      rw [hstep] at h
      by_cases hdec :
          satDec (winding_t.constraints ⟨w.plane, w.clips ++ [⟨p.normal, p.dist⟩]⟩) = true
      · have h1 : (ClipWinding w p.normal p.dist).1 =
            some ⟨w.plane, w.clips ++ [⟨p.normal, p.dist⟩]⟩ := by
          simp [ClipWinding, hdec]
        rw [h1] at h
        obtain ⟨hre, hlast⟩ := ih _ r h
        have hr2 : r = ⟨w.plane, w.clips ++ p :: ps⟩ := by
          rw [hre]
          simp
        refine ⟨hr2, fun _ => ?_⟩
        rcases ps with - | ⟨q, qs⟩
        · rw [hre]
          simpa using hdec
        · exact hlast (by simp)
      · have h1 : (ClipWinding w p.normal p.dist).1 = none := by
          simp [ClipWinding, hdec]
        rw [h1, clipChain_none] at h
        exact absurd h (by simp)

lemma clipChain_complete :
    ∀ (ps : List plane_t) (w : winding_t) (v : Vec3),
      sat3 (winding_t.constraints ⟨w.plane, w.clips ++ ps⟩) v →
      clipChain (some w) ps = some ⟨w.plane, w.clips ++ ps⟩ := by
  intro ps
  induction ps with
  | nil =>
      intro w v _
      show some w = _
      cases w
      simp
  | cons p ps ih =>
      intro w v hv
      have hmono : ∀ l1 : List plane_t, (∀ c ∈ l1, c ∈ w.clips ++ p :: ps) →
          sat3 (winding_t.constraints ⟨w.plane, l1⟩) v := by
        intro l1 hl1 c hc
        apply hv
        simp only [winding_t.constraints, List.mem_cons] at hc ⊢
        rcases hc with rfl | hc2
        · exact Or.inl rfl
        rcases hc2 with rfl | hc3
        · exact Or.inr (Or.inl rfl)
        · exact Or.inr (Or.inr (hl1 c hc3))
      have hsub : sat3 (winding_t.constraints ⟨w.plane, w.clips ++ [⟨p.normal, p.dist⟩]⟩) v := by
        apply hmono
        intro c hc
        rcases List.mem_append.mp hc with hc1 | hc1
        · exact List.mem_append_left _ hc1
        · obtain rfl := List.mem_singleton.mp hc1
          exact List.mem_append_right _ (List.mem_cons_self _ _)
      have hdec : satDec (winding_t.constraints ⟨w.plane, w.clips ++ [⟨p.normal, p.dist⟩]⟩)
          = true := (satDec_iff _).mpr ⟨v, hsub⟩
      have h1 : (ClipWinding w p.normal p.dist).1 =
          some ⟨w.plane, w.clips ++ [⟨p.normal, p.dist⟩]⟩ := by
        simp [ClipWinding, hdec]
      have hstep : clipChain (some w) (p :: ps) =
          clipChain ((ClipWinding w p.normal p.dist).1) ps := rfl
      have hvfull : sat3 (winding_t.constraints
          ⟨w.plane, (w.clips ++ [⟨p.normal, p.dist⟩]) ++ ps⟩) v := by
        apply hmono
        intro c hc
        rcases List.mem_append.mp hc with hc1 | hc1
        · rcases List.mem_append.mp hc1 with hc2 | hc2
          · exact List.mem_append_left _ hc2
          · obtain rfl := List.mem_singleton.mp hc2
            exact List.mem_append_right _ (List.mem_cons_self _ _)
        · exact List.mem_append_right _ (List.mem_cons_of_mem _ hc1)
      have hrec := ih ⟨w.plane, w.clips ++ [⟨p.normal, p.dist⟩]⟩ v hvfull
      rw [hstep, h1, hrec]
      simp [List.append_assoc]

lemma planeAt_mem (planes : List plane_t) (i : Nat) (hi : i < planes.length) :
    planeAt planes i ∈ planes := by
  unfold planeAt
  rw [List.getD_eq_getElem _ _ hi]
  exact List.getElem_mem hi

/-- the point set of a surviving winding is exactly the plane's surviving
polygon region -/
lemma leafFace_points_eq (planes : List plane_t) (i : Nat) (w : winding_t)
    (h : leafFaceWinding planes i = some w) :
    w.points = idealFace planes i := by
  obtain ⟨hw, -⟩ := clipChain_some_shape _ _ _ h
  subst hw
  ext v
  simp only [winding_t.points, idealFace, halfSpace, Set.mem_setOf_eq, BaseWindingForPlane,
    List.nil_append, dot_neg_left]
  constructor
  · rintro ⟨heq, hcl⟩
    refine ⟨by linarith [neg_eq_iff_eq_neg.mpr heq.symm], ?_⟩
    intro j hj hji
    apply hcl
    unfold otherPlanes
    apply List.mem_map_of_mem
    refine List.mem_filter.mpr ⟨List.mem_range.mpr hj, ?_⟩
    simpa using hji
  · rintro ⟨heq, hcl⟩
    refine ⟨by rw [heq], ?_⟩
    intro c hc
    unfold otherPlanes at hc
    obtain ⟨j, hjf, rfl⟩ := List.mem_map.mp hc
    obtain ⟨hjr, hjne⟩ := List.mem_filter.mp hjf
    exact hcl j (List.mem_range.mp hjr) (by simpa using hjne)

/-- a surviving winding is nonempty (for a nonzero plane normal) -/
lemma leafFaceWinding_nonempty (planes : List plane_t) (i : Nat) (w : winding_t)
    (hnz : (planeAt planes i).normal ≠ ⟨0, 0, 0⟩)
    (h : leafFaceWinding planes i = some w) : w.points.Nonempty := by
  obtain ⟨hw, hlast⟩ := clipChain_some_shape _ _ _ h
  by_cases hops : otherPlanes planes i = []
  · -- no other planes: the winding is the whole face plane; exhibit a point of it
    refine ⟨Vec3.scale ((planeAt planes i).dist / Vec3.dot (planeAt planes i).normal
      (planeAt planes i).normal) (planeAt planes i).normal, ?_⟩
    rw [hw]
    simp only [winding_t.points, Set.mem_setOf_eq, BaseWindingForPlane, List.nil_append, hops,
      List.not_mem_nil, false_implies, implies_true, and_true]
    rw [dot_neg_left, dot_scale,
      div_mul_cancel₀ _ (dot_self_ne_zero _ hnz)]
  · obtain ⟨v, hv⟩ := (satDec_iff _).mp (hlast hops)
    exact ⟨v, (mem_points_iff_sat3 w v).mpr hv⟩

lemma length_filterMap_isSome {α β : Type} (f : α → Option β) :
    ∀ l : List α, (l.filterMap f).length = (l.filter (fun a => (f a).isSome)).length := by
  intro l
  induction l with
  | nil => rfl
  | cons a l ih =>
      cases hfa : f a with
      | none => simp [List.filterMap_cons, hfa, ih]
      | some b => simp [List.filterMap_cons, hfa, ih]

/-- **C8** — `Leaf_MakeFaces` constructs at most one polygon per accumulated
plane, each seeded from the plane's flipped (outward-facing) base winding and
successively clipped against every other accumulated plane keeping the front
part, and silently drops a winding that clips away entirely (the result is
exactly the surviving chains, in plane order).  A surviving winding's point
set is exactly the plane's surviving polygon region, and is nonempty.  When
the planes' intersection is empty the result is `[]` (0 polygons); and when
the leaf is a bounded convex solid with an interior point and no redundant
plane, every chain survives: the result has exactly `k` polygons, one
nonempty polygon per plane. -/
theorem C8_leaf_makefaces (planes : List plane_t) :
    ((Leaf_MakeFaces planes).length ≤ planes.length)
    ∧ ((Leaf_MakeFaces planes).length =
        ((List.range planes.length).filter
          (fun i => (leafFaceWinding planes i).isSome)).length)
    ∧ (∀ i, i < planes.length → ∀ w, leafFaceWinding planes i = some w →
        w.points = idealFace planes i ∧
        ((planeAt planes i).normal ≠ ⟨0, 0, 0⟩ → w.points.Nonempty))
    ∧ ((∀ p ∈ planes, p.normal ≠ ⟨0, 0, 0⟩) →
        (∀ x : Vec3, ∃ p ∈ planes, Vec3.dot p.normal x < p.dist) →
        Leaf_MakeFaces planes = [])
    ∧ ((∃ R : ℚ, ∀ v : Vec3, (∀ p ∈ planes, p.dist ≤ Vec3.dot p.normal v) →
          -R ≤ v.x ∧ v.x ≤ R ∧ -R ≤ v.y ∧ v.y ≤ R ∧ -R ≤ v.z ∧ v.z ≤ R) →
        (∃ y : Vec3, ∀ p ∈ planes, p.dist < Vec3.dot p.normal y) →
        (∀ i, i < planes.length →
          ∃ x : Vec3, (∀ j, j < planes.length → j ≠ i →
              (planeAt planes j).dist ≤ Vec3.dot (planeAt planes j).normal x) ∧
            Vec3.dot (planeAt planes i).normal x < (planeAt planes i).dist) →
        (Leaf_MakeFaces planes).length = planes.length ∧
        (∀ i, i < planes.length → ∃ w, leafFaceWinding planes i = some w ∧
          w.points = idealFace planes i ∧ w.points.Nonempty)) := by
  have hb : (Leaf_MakeFaces planes).length =
      ((List.range planes.length).filter
        (fun i => (leafFaceWinding planes i).isSome)).length := by
    unfold Leaf_MakeFaces
    exact length_filterMap_isSome (leafFaceWinding planes) (List.range planes.length)
  have hc : ∀ i, i < planes.length → ∀ w, leafFaceWinding planes i = some w →
      w.points = idealFace planes i ∧
      ((planeAt planes i).normal ≠ ⟨0, 0, 0⟩ → w.points.Nonempty) :=
    fun i _hi w hw => ⟨leafFace_points_eq planes i w hw,
      fun hnz => leafFaceWinding_nonempty planes i w hnz hw⟩
  refine ⟨?_, hb, hc, ?_, ?_⟩
  · rw [hb]
    calc ((List.range planes.length).filter
          (fun i => (leafFaceWinding planes i).isSome)).length
        ≤ (List.range planes.length).length := List.length_filter_le _ _
      _ = planes.length := List.length_range planes.length
  · intro hnz hempty
    unfold Leaf_MakeFaces
    rw [List.filterMap_eq_nil_iff]
    intro i hi
    by_contra hsome
    obtain ⟨w, hw⟩ := Option.ne_none_iff_exists'.mp hsome
    have hi2 : i < planes.length := List.mem_range.mp hi
    obtain ⟨hpts, hne⟩ := hc i hi2 w hw
    obtain ⟨v, hv⟩ := hne (hnz _ (planeAt_mem planes i hi2))
    rw [hpts] at hv
    obtain ⟨heq, hother⟩ := hv
    obtain ⟨p, hp, hplt⟩ := hempty v
    obtain ⟨j, hj, hpj⟩ := List.mem_iff_getElem.mp hp
    have hpj2 : planeAt planes j = p := by
      unfold planeAt
      rw [List.getD_eq_getElem _ _ hj, hpj]
    by_cases hji : j = i
    · subst hji
      rw [hpj2] at heq
      linarith
    · have hhs := hother j hj hji
      rw [hpj2] at hhs
      simp only [halfSpace, Set.mem_setOf_eq] at hhs
      linarith
  · rintro - ⟨y, hy⟩ hnr
    -- every plane's surviving region is nonempty
    have hface : ∀ i, i < planes.length → (idealFace planes i).Nonempty := by
      intro i hi
      obtain ⟨x, hxj, hxi⟩ := hnr i hi
      have hyi : (planeAt planes i).dist < Vec3.dot (planeAt planes i).normal y :=
        hy _ (planeAt_mem planes i hi)
      have hden : 0 < Vec3.dot (planeAt planes i).normal y -
          Vec3.dot (planeAt planes i).normal x := by linarith
      have hnum : 0 < Vec3.dot (planeAt planes i).normal y - (planeAt planes i).dist := by
        linarith
      set t : ℚ := (Vec3.dot (planeAt planes i).normal y - (planeAt planes i).dist) /
        (Vec3.dot (planeAt planes i).normal y - Vec3.dot (planeAt planes i).normal x) with ht_def
      have ht0 : 0 < t := div_pos hnum hden
      have ht1 : t ≤ 1 := (div_le_one hden).mpr (by linarith)
      have hmul : t * (Vec3.dot (planeAt planes i).normal y -
          Vec3.dot (planeAt planes i).normal x) =
          Vec3.dot (planeAt planes i).normal y - (planeAt planes i).dist :=
        div_mul_cancel₀ _ (ne_of_gt hden)
      refine ⟨Vec3.add y (Vec3.scale t (Vec3.sub x y)), ?_, ?_⟩
      · rw [dot_lerp]
        nlinarith [hmul]
      · intro j hj hji
        have hjy : (planeAt planes j).dist < Vec3.dot (planeAt planes j).normal y :=
          hy _ (planeAt_mem planes j hj)
        have hjx := hxj j hj hji
        simp only [halfSpace, Set.mem_setOf_eq]
        rw [dot_lerp]
        nlinarith [mul_nonneg (by linarith : (0:ℚ) ≤ 1 - t)
            (by linarith : (0:ℚ) ≤ Vec3.dot (planeAt planes j).normal y - (planeAt planes j).dist),
          mul_nonneg (le_of_lt ht0)
            (by linarith : (0:ℚ) ≤ Vec3.dot (planeAt planes j).normal x - (planeAt planes j).dist)]
    -- hence every clip chain survives
    have hsurv : ∀ i, i < planes.length → ∃ w, leafFaceWinding planes i = some w ∧
        w.points = idealFace planes i ∧ w.points.Nonempty := by
      intro i hi
      obtain ⟨v, hv⟩ := hface i hi
      obtain ⟨heq, hother⟩ := hv
      -- v satisfies the final winding's full constraint system
      have hvpts : v ∈ winding_t.points
          ⟨⟨Vec3.scale (-1) (planeAt planes i).normal, -(planeAt planes i).dist⟩,
            otherPlanes planes i⟩ := by
        refine ⟨?_, ?_⟩
        · show Vec3.dot (Vec3.scale (-1) (planeAt planes i).normal) v = -(planeAt planes i).dist
          rw [dot_neg_left, heq]
        · intro c hcmem
          unfold otherPlanes at hcmem
          obtain ⟨j, hjf, rfl⟩ := List.mem_map.mp hcmem
          obtain ⟨hjr, hjne⟩ := List.mem_filter.mp hjf
          exact hother j (List.mem_range.mp hjr) (by simpa using hjne)
      have hsat := (mem_points_iff_sat3 _ v).mp hvpts
      have hchain := clipChain_complete (otherPlanes planes i)
        (BaseWindingForPlane (Vec3.scale (-1) (planeAt planes i).normal)
          (-(planeAt planes i).dist)) v hsat
      refine ⟨_, hchain, ?_, ?_⟩
      · exact leafFace_points_eq planes i _ hchain
      · rw [leafFace_points_eq planes i _ hchain]
        exact hface i hi
    refine ⟨?_, hsurv⟩
    rw [hb]
    have hall : ∀ i ∈ List.range planes.length,
        ((leafFaceWinding planes i).isSome : Bool) = true := by
      intro i hi
      obtain ⟨w, hw, -, -⟩ := hsurv i (List.mem_range.mp hi)
      simp [hw]
    rw [List.filter_eq_self.mpr hall, List.length_range]

/-- the six inward-facing planes of the cube `[-1,1]^3` -/
def cubePlanes : List plane_t :=
  [⟨⟨1,0,0⟩,-1⟩, ⟨⟨-1,0,0⟩,-1⟩, ⟨⟨0,1,0⟩,-1⟩, ⟨⟨0,-1,0⟩,-1⟩, ⟨⟨0,0,1⟩,-1⟩, ⟨⟨0,0,-1⟩,-1⟩]

/-- two mutually contradictory planes (`x ≥ 1` and `x ≤ -1`) -/
def contraPlanes : List plane_t := [⟨⟨1,0,0⟩, 1⟩, ⟨⟨-1,0,0⟩, 1⟩]

/-- Witness for C8: the contradictory pair reconstructs no polygons, while
the cube (bounded, with interior point, no redundant plane) reconstructs
exactly its six faces — `Leaf_MakeFaces` yields 6 polygons, and each plane's
surviving polygon (for instance face 0's) is nonempty. -/
theorem C8_leaf_makefaces_witness :
    Leaf_MakeFaces contraPlanes = [] ∧
    (Leaf_MakeFaces cubePlanes).length = 6 ∧
    (idealFace cubePlanes 0).Nonempty := by
  have hcube := (C8_leaf_makefaces cubePlanes).2.2.2.2 ?hbd ?hint ?hnr
  case hbd =>
    refine ⟨1, ?_⟩
    intro v hv
    have h1 := hv ⟨⟨1,0,0⟩,-1⟩ (by simp [cubePlanes])
    have h2 := hv ⟨⟨-1,0,0⟩,-1⟩ (by simp [cubePlanes])
    have h3 := hv ⟨⟨0,1,0⟩,-1⟩ (by simp [cubePlanes])
    have h4 := hv ⟨⟨0,-1,0⟩,-1⟩ (by simp [cubePlanes])
    have h5 := hv ⟨⟨0,0,1⟩,-1⟩ (by simp [cubePlanes])
    have h6 := hv ⟨⟨0,0,-1⟩,-1⟩ (by simp [cubePlanes])
    simp only [Vec3.dot] at h1 h2 h3 h4 h5 h6
    refine ⟨by linarith, by linarith, by linarith, by linarith, by linarith, by linarith⟩
  case hint =>
    refine ⟨⟨0, 0, 0⟩, ?_⟩
    intro p hp
    fin_cases hp <;> norm_num [Vec3.dot]
  case hnr =>
    intro i hi
    simp only [cubePlanes, List.length_cons, List.length_nil] at hi
    have hcase : ∀ x0 : Vec3,
        (∀ j, j < cubePlanes.length → j ≠ i →
          (planeAt cubePlanes j).dist ≤ Vec3.dot (planeAt cubePlanes j).normal x0) ∧
          Vec3.dot (planeAt cubePlanes i).normal x0 < (planeAt cubePlanes i).dist →
        ∃ x : Vec3, (∀ j, j < cubePlanes.length → j ≠ i →
          (planeAt cubePlanes j).dist ≤ Vec3.dot (planeAt cubePlanes j).normal x) ∧
          Vec3.dot (planeAt cubePlanes i).normal x < (planeAt cubePlanes i).dist :=
      fun x0 h => ⟨x0, h⟩
    interval_cases i
    · refine hcase ⟨-2, 0, 0⟩ ⟨?_, by norm_num [planeAt, cubePlanes, Vec3.dot]⟩
      intro j hj hji
      simp only [cubePlanes, List.length_cons, List.length_nil] at hj
      interval_cases j <;>
        first
        | exact absurd rfl hji
        | norm_num [planeAt, cubePlanes, Vec3.dot]
    · refine hcase ⟨2, 0, 0⟩ ⟨?_, by norm_num [planeAt, cubePlanes, Vec3.dot]⟩
      intro j hj hji
      simp only [cubePlanes, List.length_cons, List.length_nil] at hj
      interval_cases j <;>
        first
        | exact absurd rfl hji
        | norm_num [planeAt, cubePlanes, Vec3.dot]
    · refine hcase ⟨0, -2, 0⟩ ⟨?_, by norm_num [planeAt, cubePlanes, Vec3.dot]⟩
      intro j hj hji
      simp only [cubePlanes, List.length_cons, List.length_nil] at hj
      interval_cases j <;>
        first
        | exact absurd rfl hji
        | norm_num [planeAt, cubePlanes, Vec3.dot]
    · refine hcase ⟨0, 2, 0⟩ ⟨?_, by norm_num [planeAt, cubePlanes, Vec3.dot]⟩
      intro j hj hji
      simp only [cubePlanes, List.length_cons, List.length_nil] at hj
      interval_cases j <;>
        first
        | exact absurd rfl hji
        | norm_num [planeAt, cubePlanes, Vec3.dot]
    · refine hcase ⟨0, 0, -2⟩ ⟨?_, by norm_num [planeAt, cubePlanes, Vec3.dot]⟩
      intro j hj hji
      simp only [cubePlanes, List.length_cons, List.length_nil] at hj
      interval_cases j <;>
        first
        | exact absurd rfl hji
        | norm_num [planeAt, cubePlanes, Vec3.dot]
    · refine hcase ⟨0, 0, 2⟩ ⟨?_, by norm_num [planeAt, cubePlanes, Vec3.dot]⟩
      intro j hj hji
      simp only [cubePlanes, List.length_cons, List.length_nil] at hj
      interval_cases j <;>
        first
        | exact absurd rfl hji
        | norm_num [planeAt, cubePlanes, Vec3.dot]
  refine ⟨?_, ?_, ?_⟩
  · apply (C8_leaf_makefaces contraPlanes).2.2.2.1
    · intro p hp
      fin_cases hp <;>
        · simp only [ne_eq, Vec3.mk.injEq]
          norm_num
    · intro x
      by_cases hx : x.x < 1
      · refine ⟨⟨⟨1,0,0⟩, 1⟩, by simp [contraPlanes], ?_⟩
        show (1:ℚ) * x.x + 0 * x.y + 0 * x.z < 1
        linarith
      · refine ⟨⟨⟨-1,0,0⟩, 1⟩, by simp [contraPlanes], ?_⟩
        show (-1:ℚ) * x.x + 0 * x.y + 0 * x.z < 1
        linarith
  · exact hcube.1.trans (by norm_num [cubePlanes])
  · obtain ⟨w, -, hpts, hne⟩ := hcube.2 0 (by norm_num [cubePlanes])
    exact hpts ▸ hne

end ETrace
